import Mathlib

/-!
# usque: SOCKS5 front-end, connection relay and Windows device glue

A shallow embedding of

* `internal/syscall_windows.go` (`SockAddrInet.GetIP`, `SockAddrInet.SetIP`),
* `internal/utils_windows.go` (`AddIpAddress`, `SetMTU`, `NameToGuid`),
* `cmd/nativetun_windows.go` (`tunDevice.create`),
* `internal/socks5.go` (`dialTCP`, `dialUDP`, `TCPHandle`),

followed by the properties proved about them.

Conventions.  A Go `[]byte` is a `List Nat` (each element a byte value), a Go
`string` is a `String`, a Go `error` is a `GoError` and the `nil` error is
`none`.  Memory that the source reinterprets through `unsafe.Pointer` is a
list of bytes in address order; Windows targets of Go are little-endian.
-/

namespace Usque

/-! ## Bytes and memory -/

/-- A Go `[]byte` / `[n]byte`: the bytes in address order. -/
abbrev Bytes := List Nat

/-- Store of `src` into memory `mem` starting at byte offset `off`
(the stored range is assumed to lie inside `mem`). -/
def writeAt (mem : Bytes) (off : Nat) (src : Bytes) : Bytes :=
  mem.take off ++ src ++ mem.drop (off + src.length)

/-- Load of `n` bytes of memory `mem` starting at byte offset `off`. -/
def readAt (mem : Bytes) (off n : Nat) : Bytes :=
  (mem.drop off).take n

/-- Go builtin `copy(dst, src)` where `dst` is the `n`-byte window of `mem`
at offset `off`: copies `min n (len src)` bytes. -/
def copyInto (mem : Bytes) (off n : Nat) (src : Bytes) : Bytes :=
  writeAt mem off (src.take n)

/-- Little-endian store image of a `uint16`. -/
def putUint16 (v : Nat) : Bytes := [v % 256, v / 256 % 256]

/-- Little-endian load of a `uint16` from two bytes. -/
def getUint16 (b : Bytes) : Nat := b.getD 0 0 + 256 * b.getD 1 0

/-- Little-endian load of a `uint32` from four bytes. -/
def getUint32 (b : Bytes) : Nat :=
  b.getD 0 0 + 256 * b.getD 1 0 + 65536 * b.getD 2 0 + 16777216 * b.getD 3 0

/-- Little-endian store image of a `uint32`. -/
def putUint32 (v : Nat) : Bytes :=
  [v % 256, v / 256 % 256, v / 65536 % 256, v / 16777216 % 256]

/-! ## `net.IP` (Go standard library, the two conversions `SetIP` uses) -/

/-- Go `net.IP`: a byte slice of length 4 or 16 (anything else is invalid). -/
abbrev IP := List Nat

def IPv4len : Nat := 4
def IPv6len : Nat := 16

/-- Go `net.v4InV6Prefix`. -/
def v4InV6Prefix : Bytes := [0, 0, 0, 0, 0, 0, 0, 0, 0, 0, 0xff, 0xff]

/-- Go `net.isZeros`. -/
def isZeros (p : Bytes) : Bool := p.all (fun b => b == 0)

/-- Go `net.IP.To4`: the 4-byte form of `ip`, `none` (Go `nil`) when there is none. -/
def To4 (ip : IP) : Option IP :=
  if ip.length = IPv4len then some ip
  else if ip.length = IPv6len ∧ isZeros (ip.take 10) = true
      ∧ ip.getD 10 0 = 0xff ∧ ip.getD 11 0 = 0xff then
    some ((ip.drop 12).take 4)
  else none

/-- Go `net.IP.To16`: the 16-byte form of `ip`, `none` (Go `nil`) when there is none. -/
def To16 (ip : IP) : Option IP :=
  if ip.length = IPv4len then some (v4InV6Prefix ++ ip)
  else if ip.length = IPv6len then some ip
  else none

/-! ## `SOCKADDR_INET` (`internal/syscall_windows.go`) -/

/-- `windows.AF_INET`. -/
def AF_INET : Nat := 2
/-- `windows.AF_INET6`. -/
def AF_INET6 : Nat := 23

/-- `SockAddrInet`: `Family uint16` followed by `data [26]byte`, kept as its 28
bytes of memory because `GetIP` and `SetIP` reinterpret it as
`windows.RawSockaddrInet4` (`Family uint16; Port uint16; Addr [4]byte; Zero [8]uint8`)
and `windows.RawSockaddrInet6`
(`Family uint16; Port uint16; Flowinfo uint32; Addr [16]byte; Scope_id uint32`). -/
abbrev SockAddrInet := Bytes

/-- Size in bytes of `SockAddrInet`. -/
def sizeofSockAddrInet : Nat := 28
/-- Byte offset of `RawSockaddrInet4.Addr`. -/
def offsetAddr4 : Nat := 4
/-- Byte offset of `RawSockaddrInet6.Addr`. -/
def offsetAddr6 : Nat := 8

/-- The `Family` field (offset 0, `uint16`). -/
def Family (addr : SockAddrInet) : Nat := getUint16 (readAt addr 0 2)

/-- Assignment to the `Family` field. -/
def setFamily (addr : SockAddrInet) (v : Nat) : SockAddrInet :=
  writeAt addr 0 (putUint16 v)

/-- `SockAddrInet.GetIP`. -/
def GetIP (addr : SockAddrInet) : Option IP :=
  if Family addr = AF_INET then
    some (readAt addr offsetAddr4 4)
  else if Family addr = AF_INET6 then
    some (readAt addr offsetAddr6 16)
  else none

/-- `SockAddrInet.SetIP`. -/
def SetIP (addr : SockAddrInet) (ip : IP) : SockAddrInet :=
  match To4 ip with
  | some ip4 =>
    let dest4 := setFamily addr AF_INET
    copyInto dest4 offsetAddr4 4 ip4
  | none =>
    match To16 ip with
    | some ip6 =>
      let dest6 := setFamily addr AF_INET6
      copyInto dest6 offsetAddr6 16 ip6
    | none => addr

/-! ## `NameToGuid` (`internal/utils_windows.go`) -/

/-- Go `[16]byte`, the result type of `md5.Sum` (`md5.Size = 16`). -/
structure Sum16 where
  bytes : Bytes
  size : bytes.length = 16
  isByte : ∀ b ∈ bytes, b < 256

/-- `windows.GUID`: `Data1 uint32; Data2 uint16; Data3 uint16; Data4 [8]byte`. -/
structure GUID where
  Data1 : Nat
  Data2 : Nat
  Data3 : Nat
  Data4 : Bytes
deriving DecidableEq, Repr

/-- The `windows.GUID` seen through `(*windows.GUID)(unsafe.Pointer(p))` when `p`
points at the 16 bytes `m`: fields at offsets 0, 4, 6 and 8, little-endian. -/
def GUID.ofMem (m : Bytes) : GUID :=
  { Data1 := getUint32 (readAt m 0 4)
    Data2 := getUint16 (readAt m 4 2)
    Data3 := getUint16 (readAt m 6 2)
    Data4 := readAt m 8 8 }

/-- The 16 bytes a `windows.GUID` occupies, in address order. -/
def GUID.mem (g : GUID) : Bytes :=
  putUint32 g.Data1 ++ putUint16 g.Data2 ++ putUint16 g.Data3 ++ g.Data4

/-- Go conversion `[]byte(name)`. -/
def stringBytes (name : String) : Bytes :=
  name.toUTF8.data.toList.map (fun b => b.toNat)

/-- `NameToGuid`; `md5Sum` stands for `crypto/md5`'s `md5.Sum`. -/
def NameToGuid (md5Sum : Bytes → Sum16) (name : String) : GUID :=
  let sum := md5Sum (stringBytes name)
  GUID.ofMem sum.bytes

/-! ## Go errors -/

/-- A Go `error` value, by dynamic type. -/
inductive GoError where
  /-- `errors.New(s)`, and `fmt.Errorf` without `%w`. -/
  | errorString (s : String)
  /-- `*net.AddrError`. -/
  | addrError (Err : String) (Addr : String)
  /-- `windows.Errno(code)`, with the message text the platform gives for it. -/
  | errno (code : Nat) (text : String)
  /-- An error of any other dynamic type `kind`, with its `Error()` text. -/
  | other (kind : String) (text : String)
deriving DecidableEq, Repr

deriving instance DecidableEq for Except

/-- The `Error()` method (`net.AddrError.Error` prefixes a non-empty address). -/
def GoError.Error : GoError → String
  | .errorString s => s
  | .addrError err addr => if addr ≠ "" then "address " ++ addr ++ ": " ++ err else err
  | .errno _ text => text
  | .other _ text => text

/-- Go `strings.Contains(s, substr)`. -/
def Contains (s substr : String) : Bool :=
  s.toList.tails.any (fun t => substr.toList.isPrefixOf t)

/-! ## Dialing through the tunnel (`internal/socks5.go`, `dialTCP` and `dialUDP`) -/

/-- A `context.Context` handed out by the resolver. -/
abbrev Ctx := Nat

/-- A `net.Conn` handed out by the tunnel network stack. -/
abbrev ConnId := Nat

/-- `*net.TCPAddr` / `*net.UDPAddr`: `IP`, `Port`, `Zone`. -/
structure NetAddr where
  IP : IP
  Port : Nat
  Zone : String
deriving DecidableEq, Repr

/-- The calls `dialTCP` and `dialUDP` make outside pure string handling, in order. -/
inductive DialEvent where
  /-- `s.resolver.Resolve(context.Background(), host)`. -/
  | resolve (host : String)
  /-- `net.ResolveTCPAddr(network, address)`. -/
  | resolveTCPAddr (network address : String)
  /-- `net.ResolveUDPAddr(network, address)`. -/
  | resolveUDPAddr (network address : String)
  /-- `s.tunNet.DialContextTCP(ctx, addr)`. -/
  | dialContextTCP (ctx : Ctx) (addr : NetAddr)
  /-- `s.tunNet.DialUDP(la, addr)`. -/
  | dialUDP (la : Option NetAddr) (addr : NetAddr)
deriving DecidableEq, Repr

/-- Whether an event is a dial of the tunnel network stack. -/
def DialEvent.isStackDial : DialEvent → Bool
  | .dialContextTCP _ _ => true
  | .dialUDP _ _ => true
  | _ => false

/-- The collaborators of `dialTCP` and `dialUDP`.  `SplitHostPort`, `JoinHostPort`
and `IP.String` are pure functions of the Go standard library; the outcome of every
other call may depend on all the calls made before it (the first argument). -/
structure DialEnv where
  SplitHostPort : String → Except GoError (String × String)
  JoinHostPort : String → String → String
  ipString : IP → String
  Resolve : List DialEvent → String → Except GoError (Ctx × IP)
  ResolveTCPAddr : List DialEvent → String → String → Except GoError NetAddr
  ResolveUDPAddr : List DialEvent → String → String → Except GoError NetAddr
  DialContextTCP : List DialEvent → Ctx → NetAddr → Except GoError ConnId
  DialUDP : List DialEvent → Option NetAddr → NetAddr → Except GoError ConnId

/-- `socks5Server.dialTCP`: the returned `(net.Conn, error)` and the calls made,
appended to the calls `log` made before. -/
def dialTCP (env : DialEnv) (network raddr : String) (log : List DialEvent) :
    Except GoError ConnId × List DialEvent :=
  match env.SplitHostPort raddr with
  | .error err => (.error err, log)
  | .ok (host, port) =>
    match env.Resolve log host with
    | .error err => (.error err, log ++ [.resolve host])
    | .ok (ctx, ip) =>
      let log1 := log ++ [.resolve host]
      let address := env.JoinHostPort (env.ipString ip) port
      match env.ResolveTCPAddr log1 network address with
      | .error err => (.error err, log1 ++ [.resolveTCPAddr network address])
      | .ok addr =>
        let log2 := log1 ++ [.resolveTCPAddr network address]
        (env.DialContextTCP log2 ctx addr, log2 ++ [.dialContextTCP ctx addr])

/-- The first statement of `dialUDP`: `la` stays `nil` for an empty `laddr`, and is
`net.ResolveUDPAddr(network, laddr)` otherwise. -/
def dialUDPLocal (env : DialEnv) (network laddr : String) (log : List DialEvent) :
    Except GoError (Option NetAddr) × List DialEvent :=
  if laddr ≠ "" then
    match env.ResolveUDPAddr log network laddr with
    | .error err => (.error err, log ++ [.resolveUDPAddr network laddr])
    | .ok addr => (.ok (some addr), log ++ [.resolveUDPAddr network laddr])
  else (.ok none, log)

/-- `socks5Server.dialUDP`: the returned `(net.Conn, error)` and the calls made,
appended to the calls `log` made before. -/
def dialUDP (env : DialEnv) (network laddr raddr : String) (log : List DialEvent) :
    Except GoError ConnId × List DialEvent :=
  match dialUDPLocal env network laddr log with
  | (.error err, log0) => (.error err, log0)
  | (.ok la, log0) =>
    match env.SplitHostPort raddr with
    | .error err => (.error err, log0)
    | .ok (host, port) =>
      match env.Resolve log0 host with
      | .error err => (.error err, log0 ++ [.resolve host])
      | .ok (_, ip) =>
        let log1 := log0 ++ [.resolve host]
        let address := env.JoinHostPort (env.ipString ip) port
        match env.ResolveUDPAddr log1 network address with
        | .error err => (.error err, log1 ++ [.resolveUDPAddr network address])
        | .ok addr =>
          let log2 := log1 ++ [.resolveUDPAddr network address]
          match env.DialUDP log2 la addr with
          | .error err =>
            if Contains err.Error "port is in use" then
              -- convert gvisor gonet error to net package error
              (.error (.addrError "address already in use" laddr), log2 ++ [.dialUDP la addr])
            else (.error err, log2 ++ [.dialUDP la addr])
          | .ok rc => (.ok rc, log2 ++ [.dialUDP la addr])

/-- A sample environment: `example.com` resolves to 10.0.0.1 through the tunnel,
`127.0.0.1:5000` and `10.0.0.1:53` parse as addresses, and the stack refuses to bind
a local UDP address that an earlier `DialUDP` of the run already bound. -/
def sampleEnv : DialEnv where
  SplitHostPort := fun s =>
    if s = "example.com:53" then .ok ("example.com", "53")
    else .error (.addrError "missing port in address" s)
  JoinHostPort := fun host port => host ++ ":" ++ port
  ipString := fun ip => ".".intercalate (ip.map toString)
  Resolve := fun _ host =>
    if host = "example.com" then .ok (1, [10, 0, 0, 1])
    else .error (.other "*net.DNSError" ("lookup " ++ host ++ ": no such host"))
  ResolveTCPAddr := fun _ _ address =>
    if address = "10.0.0.1:53" then .ok ⟨[10, 0, 0, 1], 53, ""⟩
    else .error (.addrError "missing port in address" address)
  ResolveUDPAddr := fun _ _ address =>
    if address = "10.0.0.1:53" then .ok ⟨[10, 0, 0, 1], 53, ""⟩
    else if address = "127.0.0.1:5000" then .ok ⟨[127, 0, 0, 1], 5000, ""⟩
    else .error (.addrError "missing port in address" address)
  DialContextTCP := fun _ _ _ => .ok 7
  DialUDP := fun log la _ =>
    if la.isSome ∧ log.any (fun ev => match ev with
        | .dialUDP la0 _ => la0 == la
        | _ => false) then
      .error (.other "*net.OpError" "bind udp 127.0.0.1:5000: port is in use")
    else .ok 8

/-! ## Connections -/

/-- `io.EOF`. -/
def EOF : GoError := .errorString "EOF"

/-- The error of an operation on a closed connection (`net.ErrClosed` in a `*net.OpError`). -/
def errClosed : GoError := .other "*net.OpError" "use of closed network connection"

/-- `socks5.ErrUnsupportCmd`. -/
def ErrUnsupportCmd : GoError := .errorString "Unsupport Command"

/-- What one `Read` call returns: the bytes it delivers and its error (`none` is `nil`). -/
structure ReadResult where
  data : Bytes
  err : Option GoError
deriving DecidableEq, Repr

/-- A `net.Conn` with its future behaviour written out.  `reads`, `writes` and
`deadlines` list what the successive `Read`, `Write` and `SetDeadline` calls return
while the connection is open; a `Read` after the last listed one returns `io.EOF`,
a `Write` or `SetDeadline` after the last listed one succeeds.  A listed write
result `some (n, e)` is a failure with error `e` after `n` bytes.  `delivered` and
`written` accumulate the bytes read out of and written into the connection. -/
structure Conn where
  reads : List ReadResult
  writes : List (Option (Nat × GoError))
  deadlines : List (Option GoError)
  closed : Bool
  delivered : Bytes
  written : Bytes
deriving DecidableEq, Repr

/-- `c.SetDeadline(t)`. -/
def Conn.SetDeadline (c : Conn) : Option GoError × Conn :=
  if c.closed then (some errClosed, c)
  else
    match c.deadlines with
    | [] => (none, c)
    | r :: rest => (r, { c with deadlines := rest })

/-- `c.Read(bf)`: returns `(n, err)`, the buffer after the call and the connection.
At most `len(bf)` bytes are delivered, into the front of the buffer. -/
def Conn.Read (c : Conn) (bf : Bytes) : (Nat × Option GoError) × Bytes × Conn :=
  if c.closed then ((0, some errClosed), bf, c)
  else
    match c.reads with
    | [] => ((0, some EOF), bf, c)
    | r :: rest =>
      let d := r.data.take bf.length
      ((d.length, r.err), d ++ bf.drop d.length,
        { c with reads := rest, delivered := c.delivered ++ d })

/-- `c.Write(p)`: returns `(n, err)` and the connection. -/
def Conn.Write (c : Conn) (p : Bytes) : (Nat × Option GoError) × Conn :=
  if c.closed then ((0, some errClosed), c)
  else
    match c.writes with
    | [] => ((p.length, none), { c with written := c.written ++ p })
    | none :: rest => ((p.length, none), { c with writes := rest, written := c.written ++ p })
    | some (n, e) :: rest =>
      (((p.take n).length, some e), { c with writes := rest, written := c.written ++ p.take n })

/-- `c.Close()`. -/
def Conn.Close (c : Conn) : Conn := { c with closed := true }

/-! ## `TCPHandle` (`internal/socks5.go`) -/

/-- `socks5.CmdConnect`. -/
def CmdConnect : Nat := 1
/-- `socks5.CmdBind`. -/
def CmdBind : Nat := 2
/-- `socks5.CmdUDP`. -/
def CmdUDP : Nat := 3

/-- A `net.Addr`, through its `String()` method. -/
structure Addr where
  String : String
deriving DecidableEq, Repr

/-- The fields of `*socks5.Server` that `TCPHandle` reads. -/
structure Server where
  TCPTimeout : Nat

/-- A `*socks5.Request`: its command byte and its two library methods.
`Connect c` is `r.Connect(c)` (dial through `socks5.DialTCP`, reply on `c`) and
`UDP c` is `r.UDP(c, c.LocalAddr())`; each returns its result and the control
connection after the call. -/
structure Request where
  Cmd : Nat
  Connect : Conn → Except GoError Conn × Conn
  UDP : Conn → Except GoError Addr × Conn

/-- The `s.AssociatedUDP` cache: key to liveness channel. -/
abbrev Table := String → Option Nat

/-- `cache.Set(k, x, -1)` (no expiration). -/
def Table.Set (t : Table) (k : String) (x : Nat) : Table :=
  fun k0 => if k0 = k then some x else t k0

/-- `cache.Delete(k)`. -/
def Table.Delete (t : Table) (k : String) : Table :=
  fun k0 => if k0 = k then none else t k0

/-- What `TCPHandle` does besides the connection calls of its relay loop, in order. -/
inductive HandleEvent where
  /-- `r.Connect(c)` was called. -/
  | connect
  /-- `r.UDP(c, c.LocalAddr())` was called. -/
  | udp
  /-- The `go func() { ... }()` of the tunnel-to-client loop was started. -/
  | goStart
  /-- The deferred `rc.Close()` ran. -/
  | closeRc
  /-- `s.AssociatedUDP.Set(key, ch, -1)`. -/
  | set (key : String) (ch : Nat)
  /-- A `Read` of the control connection made by `io.Copy(io.Discard, c)`: whether it
  returned no error, and the association table as it stood when the read was made. -/
  | drainRead (ok : Bool) (table : Table)
  /-- `s.AssociatedUDP.Delete(key)`. -/
  | delete (key : String)
  /-- The deferred `close(ch)` ran. -/
  | closeChan (ch : Nat)

/-- Everything `TCPHandle` can touch: the control connection `c`, the tunnel-side
connection `rc` once there is one, the association table, the channels made so far
(`nextChan` is the next fresh one) and the record of calls. -/
structure World where
  c : Conn
  rc : Option Conn
  AssociatedUDP : Table
  nextChan : Nat
  log : List HandleEvent

/-- The head of both relay loops:
`if s.TCPTimeout != 0 { if err := conn.SetDeadline(...); err != nil { return } }`;
the deadline itself (a point in time) is not modelled. -/
def refreshDeadline (TCPTimeout : Nat) (conn : Conn) : Option GoError × Conn :=
  if TCPTimeout ≠ 0 then conn.SetDeadline else (none, conn)

/-- The loop both directions of a CONNECT flow run, reading `src` and writing `dst`
through the buffer `bf`:
`for { if TCPTimeout != 0 { SetDeadline }; i, err := src.Read(bf); dst.Write(bf[:i]) }`,
leaving on the first error.  At most `fuel` passes are run; the `Bool` tells whether
the loop was left within them. -/
def relayLoop (TCPTimeout : Nat) : Nat → Conn → Conn → Bytes → Bool × Conn × Conn
  | 0, src, dst, _ => (false, src, dst)
  | fuel + 1, src, dst, bf =>
    let (derr, src1) := refreshDeadline TCPTimeout src
    if derr.isSome then (true, src1, dst)
    else
      let ((i, err), bf1, src2) := src1.Read bf
      if err.isSome then (true, src2, dst)
      else
        let ((_, werr), dst1) := dst.Write (bf1.take i)
        if werr.isSome then (true, src2, dst1)
        else relayLoop TCPTimeout fuel src2 dst1 bf1

/-- The loop of the goroutine of the CONNECT branch: `rc` to `c`, `bf := make([]byte, 4*1024)`. -/
def tunnelToClient (s : Server) (fuel : Nat) (rc c : Conn) : Bool × Conn × Conn :=
  relayLoop s.TCPTimeout fuel rc c (List.replicate (4 * 1024) 0)

/-- The loop of the CONNECT branch that runs in `TCPHandle` itself: `c` to `rc`,
`bf := make([]byte, 4*1024)`. -/
def clientToTunnel (s : Server) (fuel : Nat) (c rc : Conn) : Bool × Conn × Conn :=
  relayLoop s.TCPTimeout fuel c rc (List.replicate (4 * 1024) 0)

/-- `io.Copy(io.Discard, c)` on the control connection of the world: reads until a
read fails, each read recorded in the log.  At most `fuel` reads are made; the `Bool`
tells whether the copy returned within them. -/
def ioCopyDiscard : Nat → World → Bool × World
  | 0, w => (false, w)
  | fuel + 1, w =>
    let ((_, err), _, c1) := w.c.Read (List.replicate 8192 0)
    if err.isSome then
      (true, { w with c := c1, log := w.log ++ [.drainRead false w.AssociatedUDP] })
    else
      ioCopyDiscard fuel { w with c := c1, log := w.log ++ [.drainRead true w.AssociatedUDP] }

/-- The world of the UDP ASSOCIATE branch once `r.UDP` returned `caddr` and left the
control connection as `c1`: `ch := make(chan byte)` and
`s.AssociatedUDP.Set(caddr.String(), ch, -1)` are done. -/
def udpAssociated (w : World) (caddr : Addr) (c1 : Conn) : World :=
  { w with
    c := c1
    nextChan := w.nextChan + 1
    AssociatedUDP := w.AssociatedUDP.Set caddr.String w.nextChan
    log := w.log ++ [.udp, .set caddr.String w.nextChan] }

/-- `socks5Server.TCPHandle`.  At most `fuel` passes of the loop of the branch taken
are run: the result is `none` while the handler is still in its loop, and
`some (err, w)` with the returned error and the world once it has returned (deferred
calls included).  The goroutine started by the CONNECT branch is recorded (`goStart`)
and runs beside the handler: see `Flow`. -/
def TCPHandle (fuel : Nat) (s : Server) (r : Request) (w : World) :
    Option (Option GoError × World) :=
  if r.Cmd = CmdConnect then
    match r.Connect w.c with
    | (.error err, c1) => some (some err, { w with c := c1, log := w.log ++ [.connect] })
    | (.ok rc, c1) =>
      let (left, c2, rc2) := clientToTunnel s fuel c1 rc
      if left then
        some (none, { w with c := c2, rc := some rc2.Close,
                             log := w.log ++ [.connect, .goStart, .closeRc] })
      else none
  else if r.Cmd = CmdUDP then
    match r.UDP w.c with
    | (.error err, c1) => some (some err, { w with c := c1, log := w.log ++ [.udp] })
    | (.ok caddr, c1) =>
      let (returned, w2) := ioCopyDiscard fuel (udpAssociated w caddr c1)
      if returned then
        some (none, { w2 with AssociatedUDP := w2.AssociatedUDP.Delete caddr.String,
                              log := w2.log ++ [.delete caddr.String, .closeChan w.nextChan] })
      else none
  else some (some ErrUnsupportCmd, w)

/-! ## The two loops of a CONNECT flow side by side -/

/-- Where a loop of the CONNECT branch stands: before its `SetDeadline`, before its
`Read`, before its `Write`, past its loop with the deferred `rc.Close()` still to
run (`exit`, the handler only), or finished (`done`: `TCPHandle` has returned, or
the goroutine has ended). -/
inductive PC where
  | deadline
  | read
  | write
  | exit
  | done
deriving DecidableEq, Repr

/-- The two threads of a CONNECT flow: `TCPHandle` itself (client to tunnel) and the
goroutine it starts (tunnel to client). -/
inductive Thread where
  | handler
  | goroutine
deriving DecidableEq, Repr

/-- The state of a CONNECT flow after `r.Connect` succeeded: the two connections and,
for each thread, its place in its loop, its buffer `bf` and the `i` of its last read. -/
structure Flow where
  TCPTimeout : Nat
  c : Conn
  rc : Conn
  hPC : PC
  hBf : Bytes
  hI : Nat
  gPC : PC
  gBf : Bytes
  gI : Nat

/-- The flow when the goroutine has just been started: both threads at the head of
their loops, each with its own `make([]byte, 4*1024)`. -/
def Flow.start (s : Server) (c rc : Conn) : Flow :=
  { TCPTimeout := s.TCPTimeout, c := c, rc := rc,
    hPC := .deadline, hBf := List.replicate (4 * 1024) 0, hI := 0,
    gPC := .deadline, gBf := List.replicate (4 * 1024) 0, gI := 0 }

/-- One call made by one thread: the statements of the loops of `TCPHandle`, one
connection call at a time.  The handler reads `c` and writes `rc`, and on leaving
its loop runs the deferred `rc.Close()` and returns; the goroutine reads `rc` and
writes `c`, and ends on leaving its loop.  A finished thread does nothing. -/
def Flow.step (f : Flow) : Thread → Flow
  | .handler =>
    match f.hPC with
    | .deadline =>
      let (derr, c1) := refreshDeadline f.TCPTimeout f.c
      { f with c := c1, hPC := if derr.isSome then .exit else .read }
    | .read =>
      let ((i, err), bf1, c1) := f.c.Read f.hBf
      { f with c := c1, hBf := bf1, hI := if err.isSome then f.hI else i,
               hPC := if err.isSome then .exit else .write }
    | .write =>
      let ((_, werr), rc1) := f.rc.Write (f.hBf.take f.hI)
      { f with rc := rc1, hPC := if werr.isSome then .exit else .deadline }
    | .exit => { f with rc := f.rc.Close, hPC := .done }
    | .done => f
  | .goroutine =>
    match f.gPC with
    | .deadline =>
      let (derr, rc1) := refreshDeadline f.TCPTimeout f.rc
      { f with rc := rc1, gPC := if derr.isSome then .done else .read }
    | .read =>
      let ((i, err), bf1, rc1) := f.rc.Read f.gBf
      { f with rc := rc1, gBf := bf1, gI := if err.isSome then f.gI else i,
               gPC := if err.isSome then .done else .write }
    | .write =>
      let ((_, werr), c1) := f.c.Write (f.gBf.take f.gI)
      { f with c := c1, gPC := if werr.isSome then .done else .deadline }
    | .exit => { f with gPC := .done }
    | .done => f

/-- The flow after the calls of a schedule, in order. -/
def Flow.run (f : Flow) (sched : List Thread) : Flow := sched.foldl Flow.step f

/-- The chunk the goroutine has read and not yet written, if it stands before its `Write`. -/
def Flow.pending (f : Flow) : Bytes := if f.gPC = .write then f.gBf.take f.gI else []

/-- How many calls the goroutine can still make once `rc` is closed. -/
def PC.rank : PC → Nat
  | .write => 3
  | .deadline => 2
  | .read => 1
  | .exit => 1
  | .done => 0

/-- The relation between the flow `f1` at a moment when `TCPHandle` has returned and a
later flow `f`: the handler stays returned and `rc` closed, nothing more has been
read from either connection or written to `rc`, and `c` has received at most (a
prefix of) the chunk that was pending in `f1`. -/
def Flow.AfterReturn (f1 f : Flow) : Prop :=
  f.TCPTimeout = f1.TCPTimeout ∧ f.hPC = .done ∧ f.rc.closed = true
  ∧ f.c.delivered = f1.c.delivered ∧ f.rc.delivered = f1.rc.delivered
  ∧ f.rc.written = f1.rc.written
  ∧ ((f.gPC = .write ∧ f.pending = f1.pending ∧ f.c.written = f1.c.written)
    ∨ (f.gPC ≠ .write ∧ ∃ q, q <+: f1.pending ∧ f.c.written = f1.c.written ++ q))

/-- The bytes of a list of reads, in order. -/
def chunks (rs : List ReadResult) : Bytes := (rs.map (fun r => r.data)).flatten

/-- A connection with the given future reads, on which every write and every
`SetDeadline` succeeds. -/
def Conn.ofReads (reads : List ReadResult) : Conn :=
  { reads := reads, writes := [], deadlines := [], closed := false, delivered := [],
    written := [] }

/-- A request with command `cmd` whose `Connect` yields the tunnel connection `rc`
and whose `UDP` yields the client address `127.0.0.1:40000`. -/
def sampleRequest (cmd : Nat) (rc : Conn) : Request :=
  { Cmd := cmd
    Connect := fun c => (.ok rc, c)
    UDP := fun c => (.ok ⟨"127.0.0.1:40000"⟩, c) }

/-- A world whose control connection has the given future reads, with one
association already in the table. -/
def sampleWorld (reads : List ReadResult) : World :=
  { c := Conn.ofReads reads
    rc := none
    AssociatedUDP := fun k => if k = "127.0.0.1:50000" then some 0 else none
    nextChan := 1
    log := [] }

/-- Reads delivering a 10,000-byte payload through the 4,096-byte buffer:
4096 + 4096 + 1808 bytes. -/
def payloadReads : List ReadResult :=
  [⟨List.replicate 4096 17, none⟩, ⟨List.replicate 4096 34, none⟩,
   ⟨List.replicate 1808 51, none⟩]

/-! ## Device bring-up (`internal/utils_windows.go`, `cmd/nativetun_windows.go`) -/

/-- `IpDadStatePreferred` of the `NL_DAD_STATE` enumeration (`iota` = 4). -/
def IpDadStatePreferred : Nat := 4

/-- `MibUnicastIpAddressRow`. -/
structure MibUnicastIpAddressRow where
  Address : SockAddrInet
  InterfaceLuid : Nat
  InterfaceIndex : Nat
  PrefixOrigin : Nat
  SuffixOrigin : Nat
  ValidLifetime : Nat
  PreferredLifetime : Nat
  OnLinkPrefixLength : Nat
  SkipAsSource : Bool
  DadState : Nat
  ScopeId : Nat
  CreationTimeStamp : Nat
deriving DecidableEq, Repr

/-- `MibIpInterfaceRow`: the fields `SetMTU` assigns, and the remaining fields (which
only the platform writes) as `others`. -/
structure MibIpInterfaceRow where
  Family : Nat
  InterfaceLuid : Nat
  SitePrefixLength : Nat
  NlMtu : Nat
  others : Bytes
deriving DecidableEq, Repr

/-- The zero value `&MibUnicastIpAddressRow{}`. -/
def MibUnicastIpAddressRow.zero : MibUnicastIpAddressRow :=
  { Address := List.replicate 28 0, InterfaceLuid := 0, InterfaceIndex := 0,
    PrefixOrigin := 0, SuffixOrigin := 0, ValidLifetime := 0, PreferredLifetime := 0,
    OnLinkPrefixLength := 0, SkipAsSource := false, DadState := 0, ScopeId := 0,
    CreationTimeStamp := 0 }

/-- The zero value `&MibIpInterfaceRow{}`. -/
def MibIpInterfaceRow.zero : MibIpInterfaceRow :=
  { Family := 0, InterfaceLuid := 0, SitePrefixLength := 0, NlMtu := 0, others := [] }

/-- A device returned by `tun.CreateTUNWithRequestedGUID`. -/
abbrev Device := Nat

/-- The platform calls of the device bring-up, each with what it returned, and the
lines logged, in order. -/
inductive PlatformEvent where
  /-- `tun.CreateTUNWithRequestedGUID(name, guid, mtu)` and whether it succeeded. -/
  | createTUN (name : String) (guid : GUID) (mtu : Nat) (ok : Bool)
  /-- `dev.Name()` and whether it succeeded. -/
  | devName (ok : Bool)
  /-- `ConvertInterfaceAliasToLuid(name, &luid)` and its return code. -/
  | convertInterfaceAliasToLuid (name : String) (code : Nat)
  /-- `InitializeUnicastIpAddressEntry(row)`. -/
  | initializeUnicastIpAddressEntry
  /-- `CreateUnicastIpAddressEntry(row)` and its return code. -/
  | createUnicastIpAddressEntry (row : MibUnicastIpAddressRow) (code : Nat)
  /-- `GetIpInterfaceEntry(row)` and its return code. -/
  | getIpInterfaceEntry (row : MibIpInterfaceRow) (code : Nat)
  /-- `SetIpInterfaceEntry(row)` and its return code. -/
  | setIpInterfaceEntry (row : MibIpInterfaceRow) (code : Nat)
  /-- `log.Println(...)`. -/
  | logPrintln (msg : String)
deriving DecidableEq, Repr

/-- The platform under `create`.  The outcome of each call may depend on all the
calls made before it (the first argument).  `errnoText` is the message of
`windows.Errno(code).Error()`, `ParseIP` is `net.ParseIP` (`[]` for `nil`), `md5Sum`
is `md5.Sum`, and `Name` returns the pair `(string, error)` of `dev.Name()`. -/
structure Platform where
  md5Sum : Bytes → Sum16
  ParseIP : String → IP
  errnoText : Nat → String
  CreateTUNWithRequestedGUID : List PlatformEvent → String → GUID → Nat → Except GoError Device
  Name : List PlatformEvent → Device → String × Option GoError
  ConvertInterfaceAliasToLuid : List PlatformEvent → String → Nat × Nat
  InitializeUnicastIpAddressEntry : List PlatformEvent → MibUnicastIpAddressRow
    → MibUnicastIpAddressRow
  CreateUnicastIpAddressEntry : List PlatformEvent → MibUnicastIpAddressRow → Nat
  GetIpInterfaceEntry : List PlatformEvent → MibIpInterfaceRow → MibIpInterfaceRow × Nat
  SetIpInterfaceEntry : List PlatformEvent → MibIpInterfaceRow → Nat

/-- The conversion `windows.Errno(code)` to an `error`. -/
def Platform.Errno (p : Platform) (code : Nat) : GoError := .errno code (p.errnoText code)

/-- `AliasToLuid`. -/
def AliasToLuid (p : Platform) (name : String) (log : List PlatformEvent) :
    (Nat × Option GoError) × List PlatformEvent :=
  let (luid, code) := p.ConvertInterfaceAliasToLuid log name
  let log1 := log ++ [.convertInterfaceAliasToLuid name code]
  if code ≠ 0 then ((luid, some (p.Errno code)), log1)
  else ((luid, none), log1)

/-- `CreateUnicastIpAddressEntry` (the Go wrapper of the system call). -/
def CreateUnicastIpAddressEntry (p : Platform) (r : MibUnicastIpAddressRow)
    (log : List PlatformEvent) : Option GoError × List PlatformEvent :=
  let code := p.CreateUnicastIpAddressEntry log r
  let log1 := log ++ [.createUnicastIpAddressEntry r code]
  if code ≠ 0 then (some (p.Errno code), log1) else (none, log1)

/-- `AddIpAddress`. -/
def AddIpAddress (p : Platform) (luid : Nat) (ip : IP) (log : List PlatformEvent) :
    Option GoError × List PlatformEvent :=
  let address := MibUnicastIpAddressRow.zero
  let address := p.InitializeUnicastIpAddressEntry log address
  let log1 := log ++ [.initializeUnicastIpAddressEntry]
  let address := { address with Address := SetIP address.Address ip }
  let address := { address with InterfaceLuid := luid }
  let address := { address with DadState := IpDadStatePreferred }
  CreateUnicastIpAddressEntry p address log1

/-- `SetIpInterfaceEntry` (the Go wrapper of the system call). -/
def SetIpInterfaceEntry (p : Platform) (r : MibIpInterfaceRow)
    (log : List PlatformEvent) : Option GoError × List PlatformEvent :=
  let code := p.SetIpInterfaceEntry log r
  let log1 := log ++ [.setIpInterfaceEntry r code]
  if code ≠ 0 then (some (p.Errno code), log1) else (none, log1)

/-- `SetMTU`; the error of `GetIpInterfaceEntry` is dropped, as in the source. -/
def SetMTU (p : Platform) (luid : Nat) (family : Nat) (mtu : Nat)
    (log : List PlatformEvent) : Option GoError × List PlatformEvent :=
  let entry := MibIpInterfaceRow.zero
  let entry := { entry with Family := family % 65536 }
  let entry := { entry with InterfaceLuid := luid }
  let (entry1, code) := p.GetIpInterfaceEntry log entry
  let log1 := log ++ [.getIpInterfaceEntry entry code]
  let entry2 := if entry1.Family = AF_INET then { entry1 with SitePrefixLength := 0 } else entry1
  let entry3 := { entry2 with NlMtu := mtu % 4294967296 }
  SetIpInterfaceEntry p entry3 log1

/-- The receiver of `create`: `name`, `mtu`, `ipv4`, `ipv6`. -/
structure tunDevice where
  name : String
  mtu : Nat
  ipv4 : Bool
  ipv6 : Bool
deriving DecidableEq, Repr

/-- The fields of `config.AppConfig` that `create` reads. -/
structure AppConfig where
  IPv4 : String
  IPv6 : String

/-- The body shared by the `if t.ipv4 { ... }` and `if t.ipv6 { ... }` blocks of
`create`, which differ only in the family named in the messages (`label`), the
configured address (`ipText`) and the family constant (`family`): `AddIpAddress`,
then `SetMTU`, each failure wrapped by `fmt.Errorf("...: %v", err)` and returned. -/
def assignFamily (p : Platform) (luid mtu : Nat) (label ipText : String) (family : Nat)
    (log : List PlatformEvent) : Option GoError × List PlatformEvent :=
  match AddIpAddress p luid (p.ParseIP ipText) log with
  | (some err, log) =>
    (some (.errorString ("failed to set " ++ label ++ " address: " ++ err.Error)), log)
  | (none, log) =>
    let log := log ++ [.logPrintln (label ++ " address set successfully: " ++ ipText)]
    match SetMTU p luid family mtu log with
    | (some err, log) =>
      (some (.errorString ("failed to set " ++ label ++ " MTU: " ++ err.Error)), log)
    | (none, log) =>
      (none, log ++ [.logPrintln (label ++ " MTU set successfully: " ++ toString mtu)])

/-- `tunDevice.create`: the returned `(api.TunnelDevice, error)`, the receiver after
the call and the platform calls made, appended to `log`. -/
def create (p : Platform) (cfg : AppConfig) (t : tunDevice) (log : List PlatformEvent) :
    Except GoError Device × tunDevice × List PlatformEvent :=
  let t := if t.name = "" then { t with name := "usque" } else t
  let guid := NameToGuid p.md5Sum t.name
  match p.CreateTUNWithRequestedGUID log t.name guid t.mtu with
  | .error err => (.error err, t, log ++ [.createTUN t.name guid t.mtu false])
  | .ok dev =>
    let log := log ++ [.createTUN t.name guid t.mtu true]
    match p.Name log dev with
    | (name, some err) => (.error err, { t with name := name }, log ++ [.devName false])
    | (name, none) =>
      let t := { t with name := name }
      let log := log ++ [.devName true]
      match AliasToLuid p t.name log with
      | ((_, some err), log) =>
        (.error (.errorString ("failed to get LUID: " ++ err.Error)), t, log)
      | ((luid, none), log) =>
        match (if t.ipv4 then assignFamily p luid t.mtu "IPv4" cfg.IPv4 AF_INET log
               else (none, log)) with
        | (some err, log) => (.error err, t, log)
        | (none, log) =>
          match (if t.ipv6 then assignFamily p luid t.mtu "IPv6" cfg.IPv6 AF_INET6 log
                 else (none, log)) with
          | (some err, log) => (.error err, t, log)
          | (none, log) => (.ok dev, t, log)

/-- The rows passed to `CreateUnicastIpAddressEntry` in a run, with the return
codes: the address assignments attempted. -/
def addressAttempts : List PlatformEvent → List (MibUnicastIpAddressRow × Nat)
  | [] => []
  | .createUnicastIpAddressEntry row code :: evs => (row, code) :: addressAttempts evs
  | _ :: evs => addressAttempts evs

/-- The rows passed to `SetIpInterfaceEntry` in a run, with the return codes: the
MTU assignments attempted. -/
def mtuAttempts : List PlatformEvent → List (MibIpInterfaceRow × Nat)
  | [] => []
  | .setIpInterfaceEntry row code :: evs => (row, code) :: mtuAttempts evs
  | _ :: evs => mtuAttempts evs

/-- The events of `out` after the first `log.length`: what a run that started from
`log` and ended with `out` added. -/
def newEvents (log out : List PlatformEvent) : List PlatformEvent := out.drop log.length

/-- A sample platform on which everything succeeds except that the first
`CreateUnicastIpAddressEntry` of a run returns `addr4Code`. -/
def samplePlatform (addr4Code : Nat) : Platform where
  md5Sum := fun _ => ⟨List.replicate 16 0, by decide, by decide⟩
  ParseIP := fun s =>
    if s = "172.16.0.2" then [0, 0, 0, 0, 0, 0, 0, 0, 0, 0, 255, 255, 172, 16, 0, 2]
    else if s = "2606:4700:110:8a36::1" then
      [38, 6, 71, 0, 1, 16, 138, 54, 0, 0, 0, 0, 0, 0, 0, 1]
    else []
  errnoText := fun code =>
    if code = 5 then "Access is denied." else "winapi error #" ++ toString code
  CreateTUNWithRequestedGUID := fun _ _ _ _ => .ok 1
  Name := fun _ _ => ("usque", none)
  ConvertInterfaceAliasToLuid := fun _ _ => (42, 0)
  InitializeUnicastIpAddressEntry := fun _ row => row
  CreateUnicastIpAddressEntry := fun log _ =>
    if addressAttempts log = [] then addr4Code else 0
  GetIpInterfaceEntry := fun _ row => (row, 0)
  SetIpInterfaceEntry := fun _ _ => 0

/-- A sample configuration with both addresses. -/
def sampleConfig : AppConfig := { IPv4 := "172.16.0.2", IPv6 := "2606:4700:110:8a36::1" }

/-- A sample device request with both families enabled. -/
def sampleTun : tunDevice := { name := "", mtu := 1280, ipv4 := true, ipv6 := true }

/-! # Theorems -/

/-! ### Memory lemmas -/

theorem writeAt_length (mem : Bytes) (off : Nat) (src : Bytes)
    (h : off + src.length ≤ mem.length) : (writeAt mem off src).length = mem.length := by
  simp [writeAt]; omega

theorem readAt_writeAt_same (mem : Bytes) (off : Nat) (src : Bytes)
    (h : off + src.length ≤ mem.length) : readAt (writeAt mem off src) off src.length = src := by
  have h1 : (mem.take off).length = off := by simp; omega
  simp only [readAt, writeAt, List.append_assoc]
  rw [List.drop_append_of_le_length (by omega)]
  rw [List.drop_of_length_le (by omega)]
  simp

theorem getElem?_writeAt_of_lt (mem : Bytes) (off : Nat) (src : Bytes) (i : Nat)
    (h : off + src.length ≤ mem.length) (hi : i < off) :
    (writeAt mem off src)[i]? = mem[i]? := by
  simp only [writeAt, List.append_assoc]
  rw [List.getElem?_append_left (by simp; omega)]
  simp [List.getElem?_take, hi]

theorem getElem?_writeAt_of_ge (mem : Bytes) (off : Nat) (src : Bytes) (i : Nat)
    (h : off + src.length ≤ mem.length) (hi : off + src.length ≤ i) :
    (writeAt mem off src)[i]? = mem[i]? := by
  simp only [writeAt]
  rw [List.getElem?_append_right (by simp; omega)]
  simp only [List.length_append, List.length_take, List.getElem?_drop]
  congr 1
  omega

/-! ### `SetIP` / `GetIP` -/

theorem Family_setFamily (addr : SockAddrInet) (v : Nat) (hv : v < 256)
    (h : 2 ≤ addr.length) : Family (setFamily addr v) = v := by
  have := readAt_writeAt_same addr 0 (putUint16 v) (by simpa [putUint16] using h)
  simp only [putUint16, List.length_cons, List.length_nil] at this
  simp only [Family, setFamily, putUint16]
  rw [this]
  simp [getUint16]
  omega

theorem Family_writeAt (mem : Bytes) (off : Nat) (src : Bytes)
    (h : off + src.length ≤ mem.length) (ho : 2 ≤ off) :
    Family (writeAt mem off src) = Family mem := by
  have h0 := getElem?_writeAt_of_lt mem off src 0 h (by omega)
  have h1 := getElem?_writeAt_of_lt mem off src 1 h (by omega)
  have e : readAt (writeAt mem off src) 0 2 = readAt mem 0 2 := by
    apply List.ext_getElem?
    intro i
    simp only [readAt, List.drop_zero, List.getElem?_take]
    by_cases hi : i < 2
    · simp only [hi, if_true]
      interval_cases i
      · exact h0
      · exact h1
    · simp [hi]
  simp [Family, e]

theorem To4_of_length4 (ip : IP) (h : ip.length = 4) : To4 ip = some ip := by
  simp [To4, IPv4len, h]

theorem To4_of_length16 (ip : IP) (h : ip.length = 16) :
    To4 ip = if ip.take 12 = v4InV6Prefix then some (ip.drop 12) else none := by
  rcases ip with _|⟨a0, _|⟨a1, _|⟨a2, _|⟨a3, _|⟨a4, _|⟨a5, _|⟨a6, _|⟨a7, _|⟨a8, _|⟨a9,
    _|⟨a10, _|⟨a11, _|⟨a12, _|⟨a13, _|⟨a14, _|⟨a15, _|⟨a16, t⟩⟩⟩⟩⟩⟩⟩⟩⟩⟩⟩⟩⟩⟩⟩⟩⟩ <;>
    simp at h
  simp only [To4, IPv4len, IPv6len, isZeros, v4InV6Prefix]
  by_cases hp : a0 = 0 ∧ a1 = 0 ∧ a2 = 0 ∧ a3 = 0 ∧ a4 = 0 ∧ a5 = 0 ∧ a6 = 0 ∧ a7 = 0 ∧ a8 = 0
      ∧ a9 = 0 ∧ a10 = 255 ∧ a11 = 255
  · obtain ⟨h0, h1, h2, h3, h4, h5, h6, h7, h8, h9, h10, h11⟩ := hp
    subst h0 h1 h2 h3 h4 h5 h6 h7 h8 h9 h10 h11
    simp
  · have hne : ¬ ([a0, a1, a2, a3, a4, a5, a6, a7, a8, a9, a10, a11] : List Nat)
        = [0, 0, 0, 0, 0, 0, 0, 0, 0, 0, 255, 255] := by
      simpa using hp
    simp [hne]
    intro b0 b1 b2 b3 b4 b5 b6 b7 b8 b9 b10
    exact fun b11 => hp ⟨b0, b1, b2, b3, b4, b5, b6, b7, b8, b9, b10, b11⟩

theorem SetIP_v4 (addr : SockAddrInet) (ip ip4 : IP) (haddr : addr.length = 28)
    (h4 : To4 ip = some ip4) (hl : ip4.length = 4) :
    Family (SetIP addr ip) = AF_INET ∧ GetIP (SetIP addr ip) = some ip4
      ∧ readAt (SetIP addr ip) 4 4 = ip4 ∧ (SetIP addr ip).length = 28
      ∧ ∀ i, 2 ≤ i → (i < 4 ∨ 8 ≤ i) → (SetIP addr ip)[i]? = addr[i]? := by
  have hs : SetIP addr ip = writeAt (setFamily addr AF_INET) 4 ip4 := by
    simp [SetIP, h4, copyInto, offsetAddr4, List.take_of_length_le, hl]
  have hfl : (setFamily addr AF_INET).length = 28 := by
    rw [setFamily, writeAt_length _ _ _ (by simp [putUint16, haddr])]; exact haddr
  have hfam : Family (SetIP addr ip) = AF_INET := by
    rw [hs, Family_writeAt _ _ _ (by omega) (by omega)]
    exact Family_setFamily addr AF_INET (by decide) (by omega)
  have hrd : readAt (SetIP addr ip) 4 4 = ip4 := by
    have := readAt_writeAt_same (setFamily addr AF_INET) 4 ip4 (by omega)
    rw [hl] at this
    rw [hs]; exact this
  refine ⟨hfam, ?_, hrd, ?_, ?_⟩
  · simp [GetIP, hfam, offsetAddr4, hrd]
  · rw [hs, writeAt_length _ _ _ (by omega)]; exact hfl
  · intro i h2 hi
    rw [hs]
    have hframe : (setFamily addr AF_INET)[i]? = addr[i]? :=
      getElem?_writeAt_of_ge addr 0 (putUint16 AF_INET) i (by simp [putUint16, haddr])
        (by simpa [putUint16] using h2)
    rcases hi with hi | hi
    · rw [getElem?_writeAt_of_lt _ _ _ _ (by omega) hi]; exact hframe
    · rw [getElem?_writeAt_of_ge _ _ _ _ (by omega) (by omega)]; exact hframe

theorem SetIP_v6 (addr : SockAddrInet) (ip : IP) (haddr : addr.length = 28)
    (h4 : To4 ip = none) (hl : ip.length = 16) :
    Family (SetIP addr ip) = AF_INET6 ∧ GetIP (SetIP addr ip) = some ip
      ∧ readAt (SetIP addr ip) 8 16 = ip ∧ (SetIP addr ip).length = 28
      ∧ ∀ i, 2 ≤ i → (i < 8 ∨ 24 ≤ i) → (SetIP addr ip)[i]? = addr[i]? := by
  have h16 : To16 ip = some ip := by simp [To16, IPv4len, IPv6len, hl]
  have hs : SetIP addr ip = writeAt (setFamily addr AF_INET6) 8 ip := by
    simp [SetIP, h4, h16, copyInto, offsetAddr6, List.take_of_length_le, hl]
  have hfl : (setFamily addr AF_INET6).length = 28 := by
    rw [setFamily, writeAt_length _ _ _ (by simp [putUint16, haddr])]; exact haddr
  have hfam : Family (SetIP addr ip) = AF_INET6 := by
    rw [hs, Family_writeAt _ _ _ (by omega) (by omega)]
    exact Family_setFamily addr AF_INET6 (by decide) (by omega)
  have hrd : readAt (SetIP addr ip) 8 16 = ip := by
    have := readAt_writeAt_same (setFamily addr AF_INET6) 8 ip (by omega)
    rw [hl] at this
    rw [hs]; exact this
  refine ⟨hfam, ?_, hrd, ?_, ?_⟩
  · simp [GetIP, hfam, offsetAddr6, hrd, AF_INET, AF_INET6]
  · rw [hs, writeAt_length _ _ _ (by omega)]; exact hfl
  · intro i h2 hi
    rw [hs]
    have hframe : (setFamily addr AF_INET6)[i]? = addr[i]? :=
      getElem?_writeAt_of_ge addr 0 (putUint16 AF_INET6) i (by simp [putUint16, haddr])
        (by simpa [putUint16] using h2)
    rcases hi with hi | hi
    · rw [getElem?_writeAt_of_lt _ _ _ _ (by omega) hi]; exact hframe
    · rw [getElem?_writeAt_of_ge _ _ _ _ (by omega) (by omega)]; exact hframe

/-- C10: `SetIP` followed by `GetIP` is a round trip on `SockAddrInet`, whatever the
28 bytes held before.  A 4-byte address, and a 16-byte IPv4-mapped address through
its last 4 bytes, set `Family = AF_INET`, are returned by `GetIP` and sit at byte
offset 4; every other 16-byte address sets `Family = AF_INET6`, is returned by `GetIP`
and sits at byte offset 8.  The structure keeps its 28 bytes and every byte outside
the `Family` field (bytes 0..1) and the address field is unchanged. -/
theorem SetIP_GetIP_roundtrip (addr : SockAddrInet) (ip : IP)
    (haddr : addr.length = sizeofSockAddrInet) :
    (ip.length = 4 →
      Family (SetIP addr ip) = AF_INET ∧ GetIP (SetIP addr ip) = some ip
        ∧ readAt (SetIP addr ip) 4 4 = ip ∧ (SetIP addr ip).length = 28
        ∧ ∀ i, 2 ≤ i → (i < 4 ∨ 8 ≤ i) → (SetIP addr ip)[i]? = addr[i]?) ∧
    (ip.length = 16 → ip.take 12 = v4InV6Prefix →
      Family (SetIP addr ip) = AF_INET ∧ GetIP (SetIP addr ip) = some (ip.drop 12)
        ∧ readAt (SetIP addr ip) 4 4 = ip.drop 12 ∧ (SetIP addr ip).length = 28
        ∧ ∀ i, 2 ≤ i → (i < 4 ∨ 8 ≤ i) → (SetIP addr ip)[i]? = addr[i]?) ∧
    (ip.length = 16 → ip.take 12 ≠ v4InV6Prefix →
      Family (SetIP addr ip) = AF_INET6 ∧ GetIP (SetIP addr ip) = some ip
        ∧ readAt (SetIP addr ip) 8 16 = ip ∧ (SetIP addr ip).length = 28
        ∧ ∀ i, 2 ≤ i → (i < 8 ∨ 24 ≤ i) → (SetIP addr ip)[i]? = addr[i]?) := by
  have haddr' : addr.length = 28 := haddr
  refine ⟨fun h => ?_, fun h hp => ?_, fun h hp => ?_⟩
  · exact SetIP_v4 addr ip ip haddr' (To4_of_length4 ip h) h
  · exact SetIP_v4 addr ip (ip.drop 12) haddr' (by rw [To4_of_length16 ip h, if_pos hp])
      (by simp [h])
  · exact SetIP_v6 addr ip haddr' (by rw [To4_of_length16 ip h, if_neg hp]) h

theorem SetIP_GetIP_roundtrip_witness :
    (List.replicate 28 170 : Bytes).length = sizeofSockAddrInet
    ∧ GetIP (SetIP (List.replicate 28 170) [10, 0, 0, 1]) = some [10, 0, 0, 1]
    ∧ GetIP (SetIP (List.replicate 28 170)
        [0, 0, 0, 0, 0, 0, 0, 0, 0, 0, 255, 255, 10, 0, 0, 1]) = some [10, 0, 0, 1]
    ∧ GetIP (SetIP (List.replicate 28 170)
        [32, 1, 13, 184, 0, 0, 0, 0, 0, 0, 0, 0, 0, 0, 0, 1])
        = some [32, 1, 13, 184, 0, 0, 0, 0, 0, 0, 0, 0, 0, 0, 0, 1] :=
  ⟨by decide,
   ((SetIP_GetIP_roundtrip (List.replicate 28 170) [10, 0, 0, 1] (by decide)).1
      (by decide)).2.1,
   ((SetIP_GetIP_roundtrip (List.replicate 28 170)
      [0, 0, 0, 0, 0, 0, 0, 0, 0, 0, 255, 255, 10, 0, 0, 1] (by decide)).2.1
      (by decide) (by decide)).2.1,
   ((SetIP_GetIP_roundtrip (List.replicate 28 170)
      [32, 1, 13, 184, 0, 0, 0, 0, 0, 0, 0, 0, 0, 0, 0, 1] (by decide)).2.2
      (by decide) (by decide)).2.1⟩

/-! ### `NameToGuid` -/

theorem GUID.mem_ofMem (m : Bytes) (hlen : m.length = 16) (hb : ∀ b ∈ m, b < 256) :
    GUID.mem (GUID.ofMem m) = m := by
  rcases m with _|⟨a0, _|⟨a1, _|⟨a2, _|⟨a3, _|⟨a4, _|⟨a5, _|⟨a6, _|⟨a7, _|⟨a8, _|⟨a9,
    _|⟨a10, _|⟨a11, _|⟨a12, _|⟨a13, _|⟨a14, _|⟨a15, _|⟨a16, t⟩⟩⟩⟩⟩⟩⟩⟩⟩⟩⟩⟩⟩⟩⟩⟩⟩ <;>
    simp at hlen
  simp only [List.mem_cons, List.mem_nil_iff, or_false, forall_eq_or_imp, forall_eq] at hb
  obtain ⟨h0, h1, h2, h3, h4, h5, h6, h7, _⟩ := hb
  simp only [GUID.mem, GUID.ofMem, readAt, getUint32, getUint16, putUint32, putUint16,
    List.drop, List.take, List.getD_cons_zero, List.getD_cons_succ, List.cons_append,
    List.nil_append]
  congr 1; · omega
  congr 1; · omega
  congr 1; · omega
  congr 1; · omega
  congr 1; · omega
  congr 1; · omega
  congr 1; · omega
  congr 1; omega

/-- C9: `NameToGuid` is the MD5 digest of the name reinterpreted as a GUID: the 16
bytes of the result in memory order are the digest of the bytes of the name, with
`Data1`, `Data2`, `Data3` the little-endian integers of digest bytes 0..3, 4..5, 6..7
and `Data4` the digest bytes 8..15; equal names give equal identifiers, and two
names give the same identifier exactly when their digests are equal. -/
theorem NameToGuid_is_md5 (md5Sum : Bytes → Sum16) (name : String) :
    GUID.mem (NameToGuid md5Sum name) = (md5Sum (stringBytes name)).bytes
    ∧ (NameToGuid md5Sum name).Data1 = getUint32 ((md5Sum (stringBytes name)).bytes.take 4)
    ∧ (NameToGuid md5Sum name).Data2
        = getUint16 (((md5Sum (stringBytes name)).bytes.drop 4).take 2)
    ∧ (NameToGuid md5Sum name).Data3
        = getUint16 (((md5Sum (stringBytes name)).bytes.drop 6).take 2)
    ∧ (NameToGuid md5Sum name).Data4 = ((md5Sum (stringBytes name)).bytes.drop 8).take 8
    ∧ (∀ other : String, other = name → NameToGuid md5Sum other = NameToGuid md5Sum name)
    ∧ (∀ other : String, NameToGuid md5Sum other = NameToGuid md5Sum name ↔
        (md5Sum (stringBytes other)).bytes = (md5Sum (stringBytes name)).bytes) := by
  refine ⟨?_, ?_, rfl, rfl, rfl, ?_, ?_⟩
  · exact GUID.mem_ofMem _ (md5Sum _).size (md5Sum _).isByte
  · simp [NameToGuid, GUID.ofMem, readAt]
  · intro other h; rw [h]
  · intro other
    constructor
    · intro h
      have h1 := GUID.mem_ofMem _ (md5Sum (stringBytes other)).size
        (md5Sum (stringBytes other)).isByte
      have h2 := GUID.mem_ofMem _ (md5Sum (stringBytes name)).size
        (md5Sum (stringBytes name)).isByte
      simp only [NameToGuid] at h
      rw [← h1, ← h2, h]
    · intro h
      simp only [NameToGuid, h]

/-! ### `dialTCP` and `dialUDP` -/

/-- C2: in `dialUDP`, once the local address, the split of `raddr`, the resolution of
its host and the parse of the resolved address have succeeded, a failure `err` of
the stack's `DialUDP` whose text contains "port is in use" is returned as the
`net.AddrError` with `Err = "address already in use"` and `Addr = laddr` (and no
connection); every other failure of the stack is returned unchanged, so it has the
address-in-use shape only if the stack's own error already was that very value. -/
theorem dialUDP_address_in_use (env : DialEnv) (network laddr raddr : String)
    (log log0 : List DialEvent) (la : Option NetAddr) (host port : String) (ctx : Ctx)
    (ip : IP) (addr : NetAddr) (err : GoError)
    (hla : dialUDPLocal env network laddr log = (.ok la, log0))
    (hsplit : env.SplitHostPort raddr = .ok (host, port))
    (hres : env.Resolve log0 host = .ok (ctx, ip))
    (haddr : env.ResolveUDPAddr (log0 ++ [.resolve host]) network
      (env.JoinHostPort (env.ipString ip) port) = .ok addr)
    (hdial : env.DialUDP (log0 ++ [.resolve host] ++
      [.resolveUDPAddr network (env.JoinHostPort (env.ipString ip) port)]) la addr
      = .error err) :
    (Contains err.Error "port is in use" = true →
      (dialUDP env network laddr raddr log).1
        = .error (.addrError "address already in use" laddr)) ∧
    (Contains err.Error "port is in use" = false →
      (dialUDP env network laddr raddr log).1 = .error err
      ∧ ((dialUDP env network laddr raddr log).1
          = .error (.addrError "address already in use" laddr) →
        err = .addrError "address already in use" laddr)) := by
  simp only [List.append_assoc, List.singleton_append] at hdial
  constructor
  · intro hc
    simp [dialUDP, hla, hsplit, hres, haddr, hdial, hc]
  · intro hc
    have h : (dialUDP env network laddr raddr log).1 = .error err := by
      simp [dialUDP, hla, hsplit, hres, haddr, hdial, hc]
    refine ⟨h, ?_⟩
    intro h2
    rw [h] at h2
    exact Except.error.inj h2

theorem dialUDP_address_in_use_witness :
    (dialUDP sampleEnv "udp" "127.0.0.1:5000" "example.com:53"
        [.dialUDP (some ⟨[127, 0, 0, 1], 5000, ""⟩) ⟨[10, 0, 0, 1], 53, ""⟩]).1
      = .error (.addrError "address already in use" "127.0.0.1:5000") :=
  (dialUDP_address_in_use sampleEnv "udp" "127.0.0.1:5000" "example.com:53"
    [.dialUDP (some ⟨[127, 0, 0, 1], 5000, ""⟩) ⟨[10, 0, 0, 1], 53, ""⟩]
    ([.dialUDP (some ⟨[127, 0, 0, 1], 5000, ""⟩) ⟨[10, 0, 0, 1], 53, ""⟩] ++
      [.resolveUDPAddr "udp" "127.0.0.1:5000"])
    (some ⟨[127, 0, 0, 1], 5000, ""⟩) "example.com" "53" 1 [10, 0, 0, 1]
    ⟨[10, 0, 0, 1], 53, ""⟩ (.other "*net.OpError" "bind udp 127.0.0.1:5000: port is in use")
    (by decide) (by decide) (by decide) (by decide) (by decide)).1 (by decide)

theorem dialTCP_calls (env : DialEnv) (network raddr : String) (log : List DialEvent) :
    ∃ new, (dialTCP env network raddr log).2 = log ++ new ∧
      (∀ ev ∈ new, ev.isStackDial = true → ∃ host port ctx ip addr,
        env.SplitHostPort raddr = .ok (host, port) ∧ env.Resolve log host = .ok (ctx, ip) ∧
        env.ResolveTCPAddr (log ++ [.resolve host]) network
          (env.JoinHostPort (env.ipString ip) port) = .ok addr ∧
        ev = .dialContextTCP ctx addr) ∧
      (∀ e, env.SplitHostPort raddr = .error e →
        new = [] ∧ (dialTCP env network raddr log).1 = .error e) ∧
      (∀ host port e, env.SplitHostPort raddr = .ok (host, port) →
        env.Resolve log host = .error e →
        (∀ ev ∈ new, ev.isStackDial = false) ∧ (dialTCP env network raddr log).1 = .error e) := by
  cases hs : env.SplitHostPort raddr with
  | error e => exact ⟨[], by simp [dialTCP, hs]⟩
  | ok hp =>
    obtain ⟨host, port⟩ := hp
    cases hr : env.Resolve log host with
    | error e =>
      refine ⟨[.resolve host], by simp [dialTCP, hs, hr], ?_, by simp, ?_⟩
      · intro ev hev hd; simp at hev; subst hev; simp [DialEvent.isStackDial] at hd
      · intro host' port' e' h1 h2
        simp only [Except.ok.injEq, Prod.mk.injEq] at h1
        obtain ⟨rfl, rfl⟩ := h1
        rw [hr] at h2
        simp only [Except.error.injEq] at h2
        subst h2
        simp [DialEvent.isStackDial, dialTCP, hs, hr]
    | ok ci =>
      obtain ⟨ctx, ip⟩ := ci
      cases ha : env.ResolveTCPAddr (log ++ [.resolve host]) network
          (env.JoinHostPort (env.ipString ip) port) with
      | error e =>
        refine ⟨[.resolve host, .resolveTCPAddr network
          (env.JoinHostPort (env.ipString ip) port)], by simp [dialTCP, hs, hr, ha],
          ?_, by simp, ?_⟩
        · intro ev hev hd
          simp at hev
          rcases hev with rfl | rfl <;> simp [DialEvent.isStackDial] at hd
        · intro host' port' e' h1 h2
          simp only [Except.ok.injEq, Prod.mk.injEq] at h1
          obtain ⟨rfl, rfl⟩ := h1
          rw [hr] at h2
          cases h2
      | ok addr =>
        refine ⟨[.resolve host, .resolveTCPAddr network
          (env.JoinHostPort (env.ipString ip) port), .dialContextTCP ctx addr],
          by simp [dialTCP, hs, hr, ha], ?_, by simp, ?_⟩
        · intro ev hev hd
          simp at hev
          rcases hev with rfl | rfl | rfl
          · simp [DialEvent.isStackDial] at hd
          · simp [DialEvent.isStackDial] at hd
          · exact ⟨host, port, ctx, ip, addr, rfl, hr, ha, rfl⟩
        · intro host' port' e' h1 h2
          simp only [Except.ok.injEq, Prod.mk.injEq] at h1
          obtain ⟨rfl, rfl⟩ := h1
          rw [hr] at h2
          cases h2

theorem dialUDPLocal_calls (env : DialEnv) (network laddr : String) (log : List DialEvent) :
    ∃ pre, (dialUDPLocal env network laddr log).2 = log ++ pre ∧
      ∀ ev ∈ pre, ev.isStackDial = false := by
  unfold dialUDPLocal
  by_cases hl : laddr = ""
  · exact ⟨[], by simp [hl]⟩
  · cases hr : env.ResolveUDPAddr log network laddr <;>
      exact ⟨[.resolveUDPAddr network laddr], by simp [hl, DialEvent.isStackDial]⟩

theorem dialUDP_calls (env : DialEnv) (network laddr raddr : String)
    (log : List DialEvent) :
    ∃ new, (dialUDP env network laddr raddr log).2 = log ++ new ∧
      (∀ ev ∈ new, ev.isStackDial = true → ∃ la log0 host port ctx ip addr,
        dialUDPLocal env network laddr log = (.ok la, log0) ∧
        env.SplitHostPort raddr = .ok (host, port) ∧ env.Resolve log0 host = .ok (ctx, ip) ∧
        env.ResolveUDPAddr (log0 ++ [.resolve host]) network
          (env.JoinHostPort (env.ipString ip) port) = .ok addr ∧
        ev = .dialUDP la addr) ∧
      (∀ e0 log0, dialUDPLocal env network laddr log = (.error e0, log0) →
        (∀ ev ∈ new, ev.isStackDial = false) ∧
        (dialUDP env network laddr raddr log).1 = .error e0) ∧
      (∀ la log0 e, dialUDPLocal env network laddr log = (.ok la, log0) →
        env.SplitHostPort raddr = .error e →
        (∀ ev ∈ new, ev.isStackDial = false) ∧
        (dialUDP env network laddr raddr log).1 = .error e) ∧
      (∀ la log0 host port e, dialUDPLocal env network laddr log = (.ok la, log0) →
        env.SplitHostPort raddr = .ok (host, port) → env.Resolve log0 host = .error e →
        (∀ ev ∈ new, ev.isStackDial = false) ∧
        (dialUDP env network laddr raddr log).1 = .error e) := by
  obtain ⟨pre, hpre, hnd⟩ := dialUDPLocal_calls env network laddr log
  rcases hl : dialUDPLocal env network laddr log with ⟨r, log0⟩
  rw [hl] at hpre
  simp only at hpre
  subst hpre
  cases r with
  | error e0 =>
    refine ⟨pre, by simp [dialUDP, hl], ?_, ?_, by simp, by simp⟩
    · intro ev hev hd; rw [hnd ev hev] at hd; cases hd
    · intro e0' log0' h
      simp only [Prod.mk.injEq, Except.error.injEq] at h
      obtain ⟨rfl, _⟩ := h
      exact ⟨hnd, by simp [dialUDP, hl]⟩
  | ok la =>
    cases hs : env.SplitHostPort raddr with
    | error e =>
      refine ⟨pre, by simp [dialUDP, hl, hs], ?_, by simp, ?_, by simp⟩
      · intro ev hev hd; rw [hnd ev hev] at hd; cases hd
      · intro la' log0' e' h1 h2
        simp only [Except.error.injEq] at h2
        subst h2
        exact ⟨hnd, by simp [dialUDP, hl, hs]⟩
    | ok hp =>
      obtain ⟨host, port⟩ := hp
      cases hr : env.Resolve (log ++ pre) host with
      | error e =>
        refine ⟨pre ++ [.resolve host], by simp [dialUDP, hl, hs, hr], ?_, by simp,
          by simp, ?_⟩
        · intro ev hev hd
          simp only [List.mem_append, List.mem_singleton] at hev
          rcases hev with hev | rfl
          · rw [hnd ev hev] at hd; cases hd
          · simp [DialEvent.isStackDial] at hd
        · intro la' log0' host' port' e' h1 h2 h3
          simp only [Prod.mk.injEq, Except.ok.injEq] at h1 h2
          obtain ⟨rfl, rfl⟩ := h1
          obtain ⟨rfl, rfl⟩ := h2
          rw [hr] at h3
          simp only [Except.error.injEq] at h3
          subst h3
          refine ⟨?_, by simp [dialUDP, hl, hs, hr]⟩
          intro ev hev
          simp only [List.mem_append, List.mem_singleton] at hev
          rcases hev with hev | rfl
          · exact hnd ev hev
          · rfl
      | ok ci =>
        obtain ⟨ctx, ip⟩ := ci
        have hres_absurd : ∀ la' log0' host' port' e',
            ((Except.ok la, log ++ pre) : Except GoError (Option NetAddr) × List DialEvent)
              = (.ok la', log0') →
            (Except.ok (host, port) : Except GoError (String × String)) = .ok (host', port') →
            env.Resolve log0' host' = .error e' → False := by
          intro la' log0' host' port' e' h1 h2 h3
          simp only [Prod.mk.injEq, Except.ok.injEq] at h1 h2
          obtain ⟨rfl, rfl⟩ := h1
          obtain ⟨rfl, rfl⟩ := h2
          rw [hr] at h3
          cases h3
        cases ha : env.ResolveUDPAddr (log ++ pre ++ [.resolve host]) network
            (env.JoinHostPort (env.ipString ip) port) with
        | error e =>
          refine ⟨pre ++ [.resolve host, .resolveUDPAddr network
            (env.JoinHostPort (env.ipString ip) port)],
            by simp only [dialUDP, hl, hs, hr, ha]; simp, ?_, by simp, by simp, ?_⟩
          · intro ev hev hd
            simp only [List.mem_append, List.mem_cons, List.mem_singleton,
              List.mem_nil_iff, or_false] at hev
            rcases hev with hev | rfl | rfl
            · rw [hnd ev hev] at hd; cases hd
            · simp [DialEvent.isStackDial] at hd
            · simp [DialEvent.isStackDial] at hd
          · intro la' log0' host' port' e' h1 h2 h3
            exact (hres_absurd la' log0' host' port' e' h1 h2 h3).elim
        | ok addr =>
          refine ⟨pre ++ [.resolve host, .resolveUDPAddr network
            (env.JoinHostPort (env.ipString ip) port), .dialUDP la addr], ?_, ?_,
            by simp, by simp, ?_⟩
          · simp only [dialUDP, hl, hs, hr, ha]
            cases hd : env.DialUDP (log ++ pre ++ [.resolve host] ++ [.resolveUDPAddr network
              (env.JoinHostPort (env.ipString ip) port)]) la addr with
            | error err => by_cases hc : Contains err.Error "port is in use" = true <;> simp [hc]
            | ok rc => simp
          · intro ev hev hd
            simp only [List.mem_append, List.mem_cons, List.mem_singleton,
              List.mem_nil_iff, or_false] at hev
            rcases hev with hev | rfl | rfl | rfl
            · rw [hnd ev hev] at hd; cases hd
            · simp [DialEvent.isStackDial] at hd
            · simp [DialEvent.isStackDial] at hd
            · exact ⟨la, log ++ pre, host, port, ctx, ip, addr, rfl, rfl, hr, ha, rfl⟩
          · intro la' log0' host' port' e' h1 h2 h3
            exact (hres_absurd la' log0' host' port' e' h1 h2 h3).elim

/-- C5 (as amended): the tunnel network stack is dialed only with a resolved IP and
port.  Every stack dial made by `dialTCP` or `dialUDP` passes the address parsed from
`JoinHostPort(ip.String(), port)`, where `(host, port)` is the split of `raddr` and
`ip` is what the resolver returned for `host`.  When the split of `raddr` fails, or
the resolution of its host fails, no stack dial is made and an error is returned
with no connection: that error, except that `dialUDP` resolves a non-empty `laddr`
first and, when that fails, returns the `laddr` error without looking at `raddr`. -/
theorem dial_only_resolved_ip (env : DialEnv) (network laddr raddr : String)
    (log : List DialEvent) :
    (∃ new, (dialTCP env network raddr log).2 = log ++ new ∧
      (∀ ev ∈ new, ev.isStackDial = true → ∃ host port ctx ip addr,
        env.SplitHostPort raddr = .ok (host, port) ∧ env.Resolve log host = .ok (ctx, ip) ∧
        env.ResolveTCPAddr (log ++ [.resolve host]) network
          (env.JoinHostPort (env.ipString ip) port) = .ok addr ∧
        ev = .dialContextTCP ctx addr) ∧
      (∀ e, env.SplitHostPort raddr = .error e →
        new = [] ∧ (dialTCP env network raddr log).1 = .error e) ∧
      (∀ host port e, env.SplitHostPort raddr = .ok (host, port) →
        env.Resolve log host = .error e →
        (∀ ev ∈ new, ev.isStackDial = false) ∧ (dialTCP env network raddr log).1 = .error e))
    ∧
    (∃ new, (dialUDP env network laddr raddr log).2 = log ++ new ∧
      (∀ ev ∈ new, ev.isStackDial = true → ∃ la log0 host port ctx ip addr,
        dialUDPLocal env network laddr log = (.ok la, log0) ∧
        env.SplitHostPort raddr = .ok (host, port) ∧ env.Resolve log0 host = .ok (ctx, ip) ∧
        env.ResolveUDPAddr (log0 ++ [.resolve host]) network
          (env.JoinHostPort (env.ipString ip) port) = .ok addr ∧
        ev = .dialUDP la addr) ∧
      (∀ e0 log0, dialUDPLocal env network laddr log = (.error e0, log0) →
        (∀ ev ∈ new, ev.isStackDial = false) ∧
        (dialUDP env network laddr raddr log).1 = .error e0) ∧
      (∀ la log0 e, dialUDPLocal env network laddr log = (.ok la, log0) →
        env.SplitHostPort raddr = .error e →
        (∀ ev ∈ new, ev.isStackDial = false) ∧
        (dialUDP env network laddr raddr log).1 = .error e) ∧
      (∀ la log0 host port e, dialUDPLocal env network laddr log = (.ok la, log0) →
        env.SplitHostPort raddr = .ok (host, port) → env.Resolve log0 host = .error e →
        (∀ ev ∈ new, ev.isStackDial = false) ∧
        (dialUDP env network laddr raddr log).1 = .error e)) :=
  ⟨dialTCP_calls env network raddr log, dialUDP_calls env network laddr raddr log⟩

/-- C5, counterexample to the claim as stated: `dialUDP` with the unparsable local
address `"bad"` and the malformed remote address `"nohostport"` does not return the
error of the failed split of `raddr`; it returns the error of resolving `laddr`. -/
theorem dialUDP_malformed_raddr_counterexample :
    sampleEnv.SplitHostPort "nohostport"
      = .error (.addrError "missing port in address" "nohostport")
    ∧ (dialUDP sampleEnv "udp" "bad" "nohostport" []).1
      = .error (.addrError "missing port in address" "bad")
    ∧ (dialUDP sampleEnv "udp" "bad" "nohostport" []).1
      ≠ .error (.addrError "missing port in address" "nohostport") := by
  decide

/-! ### Connections -/

theorem SetDeadline_frame (c : Conn) :
    c.SetDeadline.2.reads = c.reads ∧ c.SetDeadline.2.writes = c.writes
    ∧ c.SetDeadline.2.closed = c.closed ∧ c.SetDeadline.2.delivered = c.delivered
    ∧ c.SetDeadline.2.written = c.written := by
  unfold Conn.SetDeadline
  split
  · simp
  · split <;> simp

theorem refreshDeadline_frame (T : Nat) (c : Conn) :
    (refreshDeadline T c).2.reads = c.reads ∧ (refreshDeadline T c).2.writes = c.writes
    ∧ (refreshDeadline T c).2.closed = c.closed
    ∧ (refreshDeadline T c).2.delivered = c.delivered
    ∧ (refreshDeadline T c).2.written = c.written := by
  unfold refreshDeadline
  split
  · exact SetDeadline_frame c
  · simp

theorem refreshDeadline_deadlines (T : Nat) (c : Conn) :
    ∀ d ∈ (refreshDeadline T c).2.deadlines, d ∈ c.deadlines := by
  intro d
  unfold refreshDeadline Conn.SetDeadline
  by_cases hT : T = 0
  · simp [hT]
  · by_cases hc : c.closed = true
    · simp [hT, hc]
    · cases hds : c.deadlines with
      | nil => simp [hT, hc, hds]
      | cons d0 rest =>
        simp only [ne_eq, hT, not_false_eq_true, if_true, hc, Bool.false_eq_true, if_false,
          hds, List.mem_cons]
        exact fun h => Or.inr h

theorem Read_length_lt (c : Conn) (bf : Bytes) (h : (c.Read bf).1.2 = none) :
    (c.Read bf).2.2.reads.length < c.reads.length := by
  unfold Conn.Read at h ⊢
  split at h
  · simp at h
  · rename_i hc
    simp only [hc]
    cases hr : c.reads with
    | nil => simp [hr] at h
    | cons r rest => simp

theorem relayLoop_succ (T fuel : Nat) (src dst : Conn) (bf : Bytes) :
    relayLoop T (fuel + 1) src dst bf =
      if (refreshDeadline T src).1.isSome then (true, (refreshDeadline T src).2, dst)
      else if ((refreshDeadline T src).2.Read bf).1.2.isSome then
        (true, ((refreshDeadline T src).2.Read bf).2.2, dst)
      else if (dst.Write ((((refreshDeadline T src).2.Read bf).2.1).take
          ((refreshDeadline T src).2.Read bf).1.1)).1.2.isSome then
        (true, ((refreshDeadline T src).2.Read bf).2.2,
          (dst.Write ((((refreshDeadline T src).2.Read bf).2.1).take
            ((refreshDeadline T src).2.Read bf).1.1)).2)
      else relayLoop T fuel ((refreshDeadline T src).2.Read bf).2.2
        (dst.Write ((((refreshDeadline T src).2.Read bf).2.1).take
          ((refreshDeadline T src).2.Read bf).1.1)).2
        ((refreshDeadline T src).2.Read bf).2.1 := by
  rw [relayLoop]

theorem relayLoop_left (T : Nat) (fuel : Nat) (src dst : Conn) (bf : Bytes)
    (h : src.reads.length < fuel) : (relayLoop T fuel src dst bf).1 = true := by
  induction fuel generalizing src dst bf with
  | zero => omega
  | succ n ih =>
    rw [relayLoop_succ]
    by_cases h1 : (refreshDeadline T src).1.isSome = true
    · simp [h1]
    · by_cases h2 : ((refreshDeadline T src).2.Read bf).1.2.isSome = true
      · simp [h1, h2]
      · by_cases h3 : (dst.Write ((((refreshDeadline T src).2.Read bf).2.1).take
            ((refreshDeadline T src).2.Read bf).1.1)).1.2.isSome = true
        · simp [h1, h2, h3]
        · simp only [h1, h2, h3, if_false, Bool.false_eq_true]
          apply ih
          have hl := Read_length_lt (refreshDeadline T src).2 bf (by simpa using h2)
          rw [(refreshDeadline_frame T src).1] at hl
          omega

theorem Read_ok (c : Conn) (bf : Bytes) (r : ReadResult) (rest : List ReadResult)
    (hc : c.closed = false) (hr : c.reads = r :: rest) (he : r.err = none)
    (hl : r.data.length ≤ bf.length) :
    c.Read bf = ((r.data.length, none), r.data ++ bf.drop r.data.length,
      { c with reads := rest, delivered := c.delivered ++ r.data }) := by
  simp [Conn.Read, hc, hr, he, List.take_of_length_le hl]

theorem Read_fail_frame (c : Conn) (bf : Bytes) (h : c.closed = true ∨ c.reads = []) :
    (c.Read bf).1.2.isSome = true ∧ (c.Read bf).2.2 = c := by
  rcases h with h | h
  · simp [Conn.Read, h]
  · by_cases hc : c.closed = true
    · simp [Conn.Read, hc]
    · simp [Conn.Read, hc, h]

theorem Write_ok (c : Conn) (p : Bytes) (hc : c.closed = false)
    (hw : ∀ x ∈ c.writes, x = none) :
    c.Write p = ((p.length, none), { c with writes := c.writes.tail, written := c.written ++ p }) := by
  unfold Conn.Write
  simp only [hc, Bool.false_eq_true, if_false]
  cases hws : c.writes with
  | nil => simp
  | cons x rest =>
    have hx : x = none := hw x (by simp [hws])
    subst hx
    simp

theorem relayLoop_fidelity (T : Nat) (fuel : Nat) (src dst : Conn) (bf : Bytes)
    (hr : ∀ r ∈ src.reads, r.err = none ∧ r.data.length ≤ bf.length)
    (hw : ∀ x ∈ dst.writes, x = none) (hdc : dst.closed = false) :
    ∃ k, k ≤ src.reads.length
      ∧ (relayLoop T fuel src dst bf).2.1.reads = src.reads.drop k
      ∧ (relayLoop T fuel src dst bf).2.1.delivered
          = src.delivered ++ ((src.reads.take k).map (fun r => r.data)).flatten
      ∧ (relayLoop T fuel src dst bf).2.2.written
          = dst.written ++ ((src.reads.take k).map (fun r => r.data)).flatten
      ∧ (src.closed = false → (T = 0 ∨ ∀ d ∈ src.deadlines, d = none) →
          src.reads.length < fuel → k = src.reads.length) := by
  induction fuel generalizing src dst bf with
  | zero => exact ⟨0, by simp [relayLoop]⟩
  | succ n ih =>
    rw [relayLoop_succ]
    obtain ⟨f1, f2, f3, f4, f5⟩ := refreshDeadline_frame T src
    by_cases h1 : (refreshDeadline T src).1.isSome = true
    · refine ⟨0, by simp, by simp [h1, f1], by simp [h1, f4], by simp [h1], ?_⟩
      intro hsc hd _
      exfalso
      revert h1
      unfold refreshDeadline
      rcases hd with hd | hd
      · simp [hd]
      · by_cases hT : T = 0
        · simp [hT]
        · simp only [ne_eq, hT, not_false_eq_true, if_true, Conn.SetDeadline, hsc,
            Bool.false_eq_true, if_false]
          cases hds : src.deadlines with
          | nil => simp
          | cons d rest =>
            have := hd d (by simp [hds])
            subst this
            simp
    · simp only [h1, if_false, Bool.false_eq_true]
      by_cases hcl : (refreshDeadline T src).2.closed = true ∨ (refreshDeadline T src).2.reads = []
      · obtain ⟨g1, g2⟩ := Read_fail_frame (refreshDeadline T src).2 bf hcl
        refine ⟨0, by simp, by simp [g1, g2, f1], by simp [g1, g2, f4], by simp [g1], ?_⟩
        intro hsc _ hlen
        rcases hcl with hcl | hcl
        · rw [f3, hsc] at hcl; cases hcl
        · rw [f1] at hcl; simp [hcl]
      · have hcl1 : (refreshDeadline T src).2.closed = false := by
          cases hb : (refreshDeadline T src).2.closed
          · rfl
          · exact absurd (Or.inl hb) hcl
        obtain ⟨r, rest, hrs⟩ : ∃ r rest, src.reads = r :: rest := by
          cases hs : src.reads with
          | nil => exact absurd (Or.inr (by rw [f1, hs])) hcl
          | cons r rest => exact ⟨r, rest, rfl⟩
        obtain ⟨hre, hrl⟩ := hr r (by simp [hrs])
        have hread := Read_ok (refreshDeadline T src).2 bf r rest hcl1 (by rw [f1, hrs]) hre hrl
        have htake : (r.data ++ bf.drop r.data.length).take r.data.length = r.data := by
          simp
        have hwrite := Write_ok dst r.data hdc hw
        simp only [hread, htake, hwrite, Option.isSome_none, if_false, Bool.false_eq_true]
        have hbl : (r.data ++ bf.drop r.data.length).length = bf.length := by
          simp; omega
        obtain ⟨k, ik, i1, i2, i3, i4⟩ := ih
          { (refreshDeadline T src).2 with
            reads := rest, delivered := (refreshDeadline T src).2.delivered ++ r.data }
          { dst with writes := dst.writes.tail, written := dst.written ++ r.data }
          (r.data ++ bf.drop r.data.length)
          (by intro x hx; rw [hbl]; exact hr x (by simp [hrs, hx]))
          (by intro x hx; exact hw x (List.mem_of_mem_tail hx))
          hdc
        refine ⟨k + 1, by simpa [hrs] using ik, ?_, ?_, ?_, ?_⟩
        · rw [i1, hrs]; simp
        · rw [i2, hrs, f4]; simp
        · rw [i3, hrs]; simp
        · intro hsc hd hlen
          have := i4 hcl1 (by
            rcases hd with hd | hd
            · exact Or.inl hd
            · right
              intro d hdm
              exact hd d (refreshDeadline_deadlines T src d hdm))
            (by simp only; rw [hrs] at hlen; simpa using hlen)
          simp only at this
          rw [this, hrs]; simp

/-! ### The relay loops -/

/-- C3: relay byte-fidelity.  When every read on either leg succeeds with at most
4096 bytes, every write succeeds and neither connection is closed, each loop of a
CONNECT flow writes to the other leg exactly the bytes it read, in order: for some
number `k` of reads made, the bytes delivered by the source and the bytes written
to the destination both grow by the concatenation of the first `k` chunks.  When
moreover no `SetDeadline` fails and the loop is run to its end, the loop is left
(at `io.EOF`) having written the concatenation of all the chunks.  This holds for
the client-to-tunnel loop and for the tunnel-to-client loop. -/
theorem relay_byte_fidelity (s : Server) (fuel : Nat) (c rc : Conn)
    (hcr : ∀ r ∈ c.reads, r.err = none ∧ r.data.length ≤ 4096)
    (hrr : ∀ r ∈ rc.reads, r.err = none ∧ r.data.length ≤ 4096)
    (hcw : ∀ x ∈ c.writes, x = none) (hrw : ∀ x ∈ rc.writes, x = none)
    (hcc : c.closed = false) (hrc : rc.closed = false) :
    (∃ k, k ≤ c.reads.length
      ∧ (clientToTunnel s fuel c rc).2.1.delivered = c.delivered ++ chunks (c.reads.take k)
      ∧ (clientToTunnel s fuel c rc).2.2.written = rc.written ++ chunks (c.reads.take k)
      ∧ ((s.TCPTimeout = 0 ∨ ∀ d ∈ c.deadlines, d = none) → c.reads.length < fuel →
          (clientToTunnel s fuel c rc).1 = true
          ∧ (clientToTunnel s fuel c rc).2.2.written = rc.written ++ chunks c.reads))
    ∧
    (∃ k, k ≤ rc.reads.length
      ∧ (tunnelToClient s fuel rc c).2.1.delivered = rc.delivered ++ chunks (rc.reads.take k)
      ∧ (tunnelToClient s fuel rc c).2.2.written = c.written ++ chunks (rc.reads.take k)
      ∧ ((s.TCPTimeout = 0 ∨ ∀ d ∈ rc.deadlines, d = none) → rc.reads.length < fuel →
          (tunnelToClient s fuel rc c).1 = true
          ∧ (tunnelToClient s fuel rc c).2.2.written = c.written ++ chunks rc.reads)) := by
  have hbl : (List.replicate (4 * 1024) 0 : Bytes).length = 4096 := by
    rw [List.length_replicate]
  constructor
  · obtain ⟨k, hk, _, h2, h3, h4⟩ := relayLoop_fidelity s.TCPTimeout fuel c rc
      (List.replicate (4 * 1024) 0) (by rw [hbl]; exact hcr) hrw hrc
    refine ⟨k, hk, h2, h3, ?_⟩
    intro hd hf
    refine ⟨relayLoop_left _ _ _ _ _ hf, ?_⟩
    have hk' := h4 hcc hd hf
    simp only [clientToTunnel, chunks, h3, hk', List.take_length]
  · obtain ⟨k, hk, _, h2, h3, h4⟩ := relayLoop_fidelity s.TCPTimeout fuel rc c
      (List.replicate (4 * 1024) 0) (by rw [hbl]; exact hrr) hcw hcc
    refine ⟨k, hk, h2, h3, ?_⟩
    intro hd hf
    refine ⟨relayLoop_left _ _ _ _ _ hf, ?_⟩
    have hk' := h4 hrc hd hf
    simp only [tunnelToClient, chunks, h3, hk', List.take_length]

theorem payloadReads_ok : ∀ r ∈ payloadReads, r.err = none ∧ r.data.length ≤ 4096 := by
  intro r hr
  simp only [payloadReads, List.mem_cons, List.mem_singleton, List.mem_nil_iff,
    or_false] at hr
  rcases hr with rfl | rfl | rfl <;>
    exact ⟨rfl, by rw [List.length_replicate] <;> decide⟩

theorem relay_byte_fidelity_witness :
    (clientToTunnel ⟨0⟩ 4 (Conn.ofReads payloadReads) (Conn.ofReads [⟨[1, 2, 3], none⟩])).1 = true
    ∧ (clientToTunnel ⟨0⟩ 4 (Conn.ofReads payloadReads)
        (Conn.ofReads [⟨[1, 2, 3], none⟩])).2.2.written
        = (Conn.ofReads [⟨[1, 2, 3], none⟩]).written ++ chunks payloadReads := by
  obtain ⟨⟨_, _, _, _, h⟩, _⟩ := relay_byte_fidelity ⟨0⟩ 4 (Conn.ofReads payloadReads)
    (Conn.ofReads [⟨[1, 2, 3], none⟩]) payloadReads_ok (by decide) (by decide) (by decide)
    rfl rfl
  exact h (Or.inl rfl) (by decide)

/-! ### `TCPHandle` -/

/-- C1: for a request whose command is neither CONNECT nor UDP ASSOCIATE, `TCPHandle`
returns `socks5.ErrUnsupportCmd` at once and leaves the world as it was: no call of
`r.Connect` or `r.UDP` (the only ways to the resolver and the network stack), no
read or write on the control connection, no change to the association table. -/
theorem TCPHandle_unsupported_cmd (fuel : Nat) (s : Server) (r : Request) (w : World)
    (hc : r.Cmd ≠ CmdConnect) (hu : r.Cmd ≠ CmdUDP) :
    TCPHandle fuel s r w = some (some ErrUnsupportCmd, w)
    ∧ ∀ res, TCPHandle fuel s r w = some res →
        res.1 = some ErrUnsupportCmd ∧ res.2.log = w.log ∧ res.2.c = w.c
        ∧ res.2.rc = w.rc ∧ res.2.AssociatedUDP = w.AssociatedUDP := by
  have h : TCPHandle fuel s r w = some (some ErrUnsupportCmd, w) := by
    simp [TCPHandle, hc, hu]
  refine ⟨h, ?_⟩
  intro res hres
  rw [h] at hres
  cases hres
  simp

theorem TCPHandle_unsupported_cmd_witness :
    TCPHandle 0 ⟨0⟩ (sampleRequest CmdBind (Conn.ofReads [])) (sampleWorld payloadReads)
      = some (some ErrUnsupportCmd, sampleWorld payloadReads) :=
  (TCPHandle_unsupported_cmd 0 ⟨0⟩ (sampleRequest CmdBind (Conn.ofReads []))
    (sampleWorld payloadReads) (by decide) (by decide)).1

/-- C7: relay termination is silent.  In the CONNECT branch, once `r.Connect`
succeeded `TCPHandle` never returns an error: it returns `nil` as soon as its loop is
left, and the loop is left whatever the connections do (before the reads of the
control connection run out, at the latest on their `io.EOF`).  An error comes out of
the CONNECT branch exactly when `r.Connect` failed, and it is the error of
`r.Connect`. -/
theorem TCPHandle_connect_silent (fuel : Nat) (s : Server) (r : Request) (w : World)
    (hcmd : r.Cmd = CmdConnect) :
    (∀ rc c1, r.Connect w.c = (.ok rc, c1) →
      (∀ res, TCPHandle fuel s r w = some res → res.1 = none) ∧
      (c1.reads.length < fuel → ∃ w1, TCPHandle fuel s r w = some (none, w1))) ∧
    (∀ e c1, r.Connect w.c = (.error e, c1) →
      ∃ w1, TCPHandle fuel s r w = some (some e, w1)) ∧
    (∀ e w1, TCPHandle fuel s r w = some (some e, w1) →
      ∃ c1, r.Connect w.c = (.error e, c1)) := by
  refine ⟨?_, ?_, ?_⟩
  · intro rc c1 hco
    constructor
    · intro res hres
      simp only [TCPHandle, hcmd, if_true, hco] at hres
      split at hres
      · cases hres; rfl
      · cases hres
    · intro hf
      have hl : (clientToTunnel s fuel c1 rc).1 = true := relayLoop_left _ _ _ _ _ hf
      simp [TCPHandle, hcmd, hco, hl]
  · intro e c1 hco
    simp [TCPHandle, hcmd, hco]
  · intro e w1 h
    rcases hco : r.Connect w.c with ⟨res, c1⟩
    cases res with
    | error e0 =>
      simp only [TCPHandle, hcmd, if_true, hco, Option.some.injEq, Prod.mk.injEq] at h
      obtain ⟨h1, _⟩ := h
      exact ⟨c1, by rw [h1]⟩
    | ok rc =>
      simp only [TCPHandle, hcmd, if_true, hco] at h
      split at h
      · cases h
      · cases h

theorem TCPHandle_connect_silent_witness :
    ∃ w1, TCPHandle 4 ⟨30⟩ (sampleRequest CmdConnect (Conn.ofReads []))
      (sampleWorld payloadReads) = some (none, w1) :=
  ((TCPHandle_connect_silent 4 ⟨30⟩ (sampleRequest CmdConnect (Conn.ofReads []))
    (sampleWorld payloadReads) rfl).1 (Conn.ofReads []) (sampleWorld payloadReads).c rfl).2
    (by decide)

theorem ioCopyDiscard_frame (fuel : Nat) (w : World) :
    (ioCopyDiscard fuel w).2.AssociatedUDP = w.AssociatedUDP
    ∧ (ioCopyDiscard fuel w).2.nextChan = w.nextChan
    ∧ (ioCopyDiscard fuel w).2.rc = w.rc := by
  induction fuel generalizing w with
  | zero => simp [ioCopyDiscard]
  | succ n ih =>
    rw [ioCopyDiscard]
    generalize List.replicate 8192 0 = bf
    by_cases he : (w.c.Read bf).1.2.isSome = true
    · simp [he]
    · simp only [he, if_false, Bool.false_eq_true]
      obtain ⟨h1, h3, h4⟩ := ih
        { w with
          c := (w.c.Read bf).2.2
          log := w.log ++ [.drainRead true w.AssociatedUDP] }
      exact ⟨h1, h3, h4⟩

theorem ioCopyDiscard_returns (fuel : Nat) (w : World) (h : w.c.reads.length < fuel) :
    (ioCopyDiscard fuel w).1 = true := by
  induction fuel generalizing w with
  | zero => omega
  | succ n ih =>
    rw [ioCopyDiscard]
    generalize List.replicate 8192 0 = bf
    by_cases he : (w.c.Read bf).1.2.isSome = true
    · simp [he]
    · simp only [he, if_false, Bool.false_eq_true]
      apply ih
      have := Read_length_lt w.c bf (by simpa using he)
      exact Nat.lt_of_lt_of_le this (Nat.lt_succ_iff.mp h)

/-- While the control connection is open and keeps delivering without error,
`io.Copy(io.Discard, c)` has not returned. -/
theorem ioCopyDiscard_waits (fuel : Nat) (w : World) (hc : w.c.closed = false)
    (hlen : fuel ≤ w.c.reads.length) (hok : ∀ r ∈ w.c.reads.take fuel, r.err = none) :
    (ioCopyDiscard fuel w).1 = false := by
  induction fuel generalizing w with
  | zero => simp [ioCopyDiscard]
  | succ n ih =>
    rw [ioCopyDiscard]
    generalize List.replicate 8192 0 = bf
    cases hr : w.c.reads with
    | nil => rw [hr] at hlen; simp at hlen
    | cons r rest =>
      have hre : r.err = none := hok r (by simp [hr])
      simp only [Conn.Read, hc, hr, hre, Bool.false_eq_true, if_false, Option.isSome_none]
      apply ih
      · rfl
      · rw [hr] at hlen; simpa using hlen
      · intro x hx
        exact hok x (by rw [hr]; simp [hx])

/-- When `io.Copy(io.Discard, c)` has returned, it has made some number `k` of reads
that succeeded and then one read that failed (on a closed connection, at `io.EOF`
after the last listed read, or with the error of the next listed read), and the log
has grown by exactly these reads, each with the table unchanged. -/
theorem ioCopyDiscard_drained (fuel : Nat) (w : World)
    (h : (ioCopyDiscard fuel w).1 = true) :
    ∃ k, k < fuel ∧ k ≤ w.c.reads.length
      ∧ (∀ r ∈ w.c.reads.take k, r.err = none)
      ∧ ((w.c.closed = true ∧ k = 0 ∧ (ioCopyDiscard fuel w).2.c.reads = w.c.reads)
        ∨ (w.c.closed = false
          ∧ (k = w.c.reads.length ∨ ∃ r, w.c.reads[k]? = some r ∧ r.err ≠ none)
          ∧ (ioCopyDiscard fuel w).2.c.reads = w.c.reads.drop (k + 1)))
      ∧ (ioCopyDiscard fuel w).2.log
          = w.log ++ List.replicate k (.drainRead true w.AssociatedUDP)
            ++ [.drainRead false w.AssociatedUDP] := by
  induction fuel generalizing w with
  | zero => simp [ioCopyDiscard] at h
  | succ n ih =>
    rw [ioCopyDiscard] at h ⊢
    generalize List.replicate 8192 0 = bf at h ⊢
    by_cases hc : w.c.closed = true
    · have hread : w.c.Read bf = ((0, some errClosed), bf, w.c) := by simp [Conn.Read, hc]
      rw [hread]
      exact ⟨0, by omega, by omega, by simp, Or.inl ⟨hc, rfl, rfl⟩, by simp⟩
    · have hc' : w.c.closed = false := by
        cases hb : w.c.closed
        · rfl
        · exact absurd hb hc
      cases hr : w.c.reads with
      | nil =>
        have hread : w.c.Read bf = ((0, some EOF), bf, w.c) := by simp [Conn.Read, hc', hr]
        rw [hread]
        exact ⟨0, by omega, by simp, by simp,
          Or.inr ⟨hc', Or.inl (by simp), by simp [hr]⟩, by simp⟩
      | cons r rest =>
        have hread : w.c.Read bf = (((r.data.take bf.length).length, r.err),
            r.data.take bf.length ++ bf.drop (r.data.take bf.length).length,
            { w.c with reads := rest, delivered := w.c.delivered ++ r.data.take bf.length }) := by
          simp [Conn.Read, hc', hr]
        rw [hread] at h ⊢
        cases hre : r.err with
        | some e =>
          simp only [hre, Option.isSome_some, if_true]
          exact ⟨0, by omega, by simp, by simp,
            Or.inr ⟨hc', Or.inr ⟨r, by simp, by simp [hre]⟩, by simp⟩, by simp⟩
        | none =>
          simp only [hre, Option.isSome_none, Bool.false_eq_true, if_false] at h ⊢
          obtain ⟨k, hk1, hk2, hk3, hk4, hk6⟩ := ih _ h
          simp only at hk2 hk3 hk4 hk6
          refine ⟨k + 1, by omega, by simpa using hk2, ?_, ?_, ?_⟩
          · intro x hx
            simp only [List.take_succ_cons, List.mem_cons] at hx
            rcases hx with rfl | hx
            · exact hre
            · exact hk3 x hx
          · right
            refine ⟨hc', ?_⟩
            rcases hk4 with ⟨hcl, _⟩ | ⟨_, hk4, hk5⟩
            · rw [hc'] at hcl; cases hcl
            · refine ⟨?_, by rw [hk5]; simp⟩
              rcases hk4 with hk4 | ⟨r1, hr1, hr2⟩
              · left; simp [hk4]
              · right; exact ⟨r1, by simpa using hr1, hr2⟩
          · rw [hk6]; simp [List.replicate_succ]

/-- C6: lifecycle of a UDP association, the table being a map from key to liveness
channel.  If `r.UDP` fails, `TCPHandle` returns that error and the table is
unchanged.  If it succeeds with client address `a`, the fresh channel is stored
under `a.String()` and stays there throughout the draining of the control
connection.  The handler does not return while the open control connection keeps
delivering, and it does return once the reads of the control connection run out.
Whenever it returns, it returns `nil`; it has read the control connection up to
and including the first read that failed (connection closed, `io.EOF`, or a read
error); its calls are, in this order, `r.UDP`, one `Set` of the key, the reads of
the drain (each made with the entry in the table), one `Delete` of the key and the
`close` of the channel; and the table has no entry under the key and every other
key as it was initially. -/
theorem TCPHandle_udp_association (fuel : Nat) (s : Server) (r : Request) (w : World)
    (hcmd : r.Cmd = CmdUDP) :
    (∀ e c1, r.UDP w.c = (.error e, c1) →
      ∃ w1, TCPHandle fuel s r w = some (some e, w1)
        ∧ w1.AssociatedUDP = w.AssociatedUDP ∧ w1.log = w.log ++ [.udp]) ∧
    (∀ a c1, r.UDP w.c = (.ok a, c1) →
      (∀ n, (ioCopyDiscard n (udpAssociated w a c1)).2.AssociatedUDP a.String
          = some w.nextChan) ∧
      (c1.reads.length < fuel → ∃ w1, TCPHandle fuel s r w = some (none, w1)) ∧
      (c1.closed = false → fuel ≤ c1.reads.length →
        (∀ x ∈ c1.reads.take fuel, x.err = none) → TCPHandle fuel s r w = none) ∧
      (∀ res, TCPHandle fuel s r w = some res →
        res.1 = none ∧ res.2.AssociatedUDP a.String = none
        ∧ (∀ k, k ≠ a.String → res.2.AssociatedUDP k = w.AssociatedUDP k)
        ∧ (w.AssociatedUDP.Set a.String w.nextChan) a.String = some w.nextChan
        ∧ ∃ k, k < fuel ∧ k ≤ c1.reads.length
          ∧ (∀ x ∈ c1.reads.take k, x.err = none)
          ∧ ((c1.closed = true ∧ k = 0 ∧ res.2.c.reads = c1.reads)
            ∨ (c1.closed = false
              ∧ (k = c1.reads.length ∨ ∃ x, c1.reads[k]? = some x ∧ x.err ≠ none)
              ∧ res.2.c.reads = c1.reads.drop (k + 1)))
          ∧ res.2.log = w.log ++ [.udp, .set a.String w.nextChan]
              ++ List.replicate k
                (.drainRead true (w.AssociatedUDP.Set a.String w.nextChan))
              ++ [.drainRead false (w.AssociatedUDP.Set a.String w.nextChan),
                  .delete a.String, .closeChan w.nextChan])) := by
  have hne : ¬ r.Cmd = CmdConnect := by rw [hcmd]; decide
  have hT : ∀ y,
      (match r.UDP w.c with
        | (.error err, c1) =>
          some (some err, { w with c := c1, log := w.log ++ [HandleEvent.udp] })
        | (.ok caddr, c1) =>
          if (ioCopyDiscard fuel (udpAssociated w caddr c1)).1 = true then
            some (none, { (ioCopyDiscard fuel (udpAssociated w caddr c1)).2 with
              AssociatedUDP :=
                (ioCopyDiscard fuel (udpAssociated w caddr c1)).2.AssociatedUDP.Delete
                  caddr.String,
              log := (ioCopyDiscard fuel (udpAssociated w caddr c1)).2.log ++
                [.delete caddr.String, .closeChan w.nextChan] })
          else none) = y → TCPHandle fuel s r w = y := by
    intro y hy
    rw [← hy]
    unfold TCPHandle
    rw [if_neg hne, if_pos hcmd]
  refine ⟨?_, ?_⟩
  · intro e c1 hu
    simp only [TCPHandle, if_neg hne, if_pos hcmd, hu]
    exact ⟨_, rfl, rfl, rfl⟩
  · intro a c1 hu
    refine ⟨?_, ?_, ?_, ?_⟩
    · intro n
      rw [(ioCopyDiscard_frame n _).1]
      simp [udpAssociated, Table.Set]
    · intro hf
      have hl : (ioCopyDiscard fuel (udpAssociated w a c1)).1 = true :=
        ioCopyDiscard_returns _ _ (by simpa [udpAssociated] using hf)
      rw [hT _ rfl]
      simp only [hu, hl, if_true]
      exact ⟨_, rfl⟩
    · intro hcl hlen hok
      have hl : (ioCopyDiscard fuel (udpAssociated w a c1)).1 = false :=
        ioCopyDiscard_waits _ _ (by simpa [udpAssociated] using hcl)
          (by simpa [udpAssociated] using hlen) (by simpa [udpAssociated] using hok)
      rw [hT _ rfl]
      simp [hu, hl]
    · intro res hres
      rw [hT _ rfl] at hres
      simp only [hu] at hres
      obtain ⟨h1, _, _⟩ := ioCopyDiscard_frame fuel (udpAssociated w a c1)
      by_cases hl : (ioCopyDiscard fuel (udpAssociated w a c1)).1 = true
      · simp only [hl, if_true, Option.some.injEq] at hres
        obtain ⟨k, hk1, hk2, hk3, hk4, hk6⟩ :=
          ioCopyDiscard_drained fuel (udpAssociated w a c1) hl
        subst hres
        refine ⟨rfl, by simp [Table.Delete], ?_, by simp [Table.Set], k, hk1,
          by simpa [udpAssociated] using hk2, by simpa [udpAssociated] using hk3,
          by simpa [udpAssociated] using hk4, ?_⟩
        · intro k0 hk0
          simp only [Table.Delete, hk0, if_false, h1]
          simp [udpAssociated, Table.Set, hk0]
        · simp only [hk6]
          simp [udpAssociated]
      · simp only [hl, if_false] at hres
        cases hres

theorem TCPHandle_udp_association_witness :
    ∃ w1, TCPHandle 4 ⟨0⟩ (sampleRequest CmdUDP (Conn.ofReads []))
      (sampleWorld payloadReads) = some (none, w1) :=
  ((TCPHandle_udp_association 4 ⟨0⟩ (sampleRequest CmdUDP (Conn.ofReads []))
    (sampleWorld payloadReads) rfl).2 ⟨"127.0.0.1:40000"⟩ (sampleWorld payloadReads).c
    rfl).2.1 (by decide)

/-! ### `tunDevice.create` -/

theorem Contains_append_right (a b : String) : Contains (a ++ b) b = true := by
  unfold Contains
  rw [List.any_eq_true]
  refine ⟨b.toList, ?_, ?_⟩
  · rw [List.mem_tails]
    simp [String.toList]
  · simp [List.isPrefixOf_iff_prefix]

theorem newEvents_append (log new : List PlatformEvent) : newEvents log (log ++ new) = new := by
  simp [newEvents]

theorem CreateUnicastIpAddressEntry_eq (p : Platform) (r : MibUnicastIpAddressRow)
    (log : List PlatformEvent) :
    CreateUnicastIpAddressEntry p r log
      = (if p.CreateUnicastIpAddressEntry log r ≠ 0
          then some (p.Errno (p.CreateUnicastIpAddressEntry log r)) else none,
        log ++ [.createUnicastIpAddressEntry r (p.CreateUnicastIpAddressEntry log r)]) := by
  unfold CreateUnicastIpAddressEntry
  by_cases h : p.CreateUnicastIpAddressEntry log r = 0 <;> simp [h]

theorem SetIpInterfaceEntry_eq (p : Platform) (r : MibIpInterfaceRow)
    (log : List PlatformEvent) :
    SetIpInterfaceEntry p r log
      = (if p.SetIpInterfaceEntry log r ≠ 0
          then some (p.Errno (p.SetIpInterfaceEntry log r)) else none,
        log ++ [.setIpInterfaceEntry r (p.SetIpInterfaceEntry log r)]) := by
  unfold SetIpInterfaceEntry
  by_cases h : p.SetIpInterfaceEntry log r = 0 <;> simp [h]

theorem AddIpAddress_cases (p : Platform) (luid : Nat) (ip : IP) (log : List PlatformEvent) :
    ∃ row code, row.Address = SetIP
        (p.InitializeUnicastIpAddressEntry log MibUnicastIpAddressRow.zero).Address ip
      ∧ AddIpAddress p luid ip log
        = (if code ≠ 0 then some (p.Errno code) else none,
            log ++ [.initializeUnicastIpAddressEntry, .createUnicastIpAddressEntry row code]) := by
  refine ⟨{ (p.InitializeUnicastIpAddressEntry log MibUnicastIpAddressRow.zero) with
      Address := SetIP
        (p.InitializeUnicastIpAddressEntry log MibUnicastIpAddressRow.zero).Address ip
      InterfaceLuid := luid
      DadState := IpDadStatePreferred },
    p.CreateUnicastIpAddressEntry (log ++ [.initializeUnicastIpAddressEntry])
      { (p.InitializeUnicastIpAddressEntry log MibUnicastIpAddressRow.zero) with
        Address := SetIP
          (p.InitializeUnicastIpAddressEntry log MibUnicastIpAddressRow.zero).Address ip
        InterfaceLuid := luid
        DadState := IpDadStatePreferred }, rfl, ?_⟩
  unfold AddIpAddress
  simp only [CreateUnicastIpAddressEntry_eq, List.append_assoc, List.singleton_append]

theorem SetMTU_cases (p : Platform) (luid family mtu : Nat) (log : List PlatformEvent) :
    ∃ row0 code0 row code,
      SetMTU p luid family mtu log
        = (if code ≠ 0 then some (p.Errno code) else none,
            log ++ [.getIpInterfaceEntry row0 code0, .setIpInterfaceEntry row code]) := by
  let row0 : MibIpInterfaceRow :=
    { MibIpInterfaceRow.zero with Family := family % 65536, InterfaceLuid := luid }
  let got := (p.GetIpInterfaceEntry log row0).1
  let row : MibIpInterfaceRow :=
    { (if got.Family = AF_INET then { got with SitePrefixLength := 0 } else got) with
      NlMtu := mtu % 4294967296 }
  refine ⟨row0, (p.GetIpInterfaceEntry log row0).2, row,
    p.SetIpInterfaceEntry (log ++ [.getIpInterfaceEntry row0 (p.GetIpInterfaceEntry log row0).2])
      row, ?_⟩
  unfold SetMTU
  simp only [SetIpInterfaceEntry_eq, List.append_assoc, List.singleton_append]

/-- The three ways the block of one address family ends: the address assignment
fails, the MTU assignment fails, or both succeed. -/
theorem assignFamily_cases (p : Platform) (luid mtu : Nat) (label ipText : String)
    (family : Nat) (log : List PlatformEvent) :
    (∃ row code, code ≠ 0 ∧ (∃ init, row.Address = SetIP init (p.ParseIP ipText)) ∧
      assignFamily p luid mtu label ipText family log
      = (some (.errorString ("failed to set " ++ label ++ " address: " ++ p.errnoText code)),
         log ++ [.initializeUnicastIpAddressEntry, .createUnicastIpAddressEntry row code]))
    ∨ (∃ row msg row0 code0 mrow code, code ≠ 0 ∧
      (∃ init, row.Address = SetIP init (p.ParseIP ipText)) ∧
      assignFamily p luid mtu label ipText family log
      = (some (.errorString ("failed to set " ++ label ++ " MTU: " ++ p.errnoText code)),
         log ++ [.initializeUnicastIpAddressEntry, .createUnicastIpAddressEntry row 0,
           .logPrintln msg, .getIpInterfaceEntry row0 code0, .setIpInterfaceEntry mrow code]))
    ∨ (∃ row msg row0 code0 mrow msg1,
      (∃ init, row.Address = SetIP init (p.ParseIP ipText)) ∧
      assignFamily p luid mtu label ipText family log
      = (none,
         log ++ [.initializeUnicastIpAddressEntry, .createUnicastIpAddressEntry row 0,
           .logPrintln msg, .getIpInterfaceEntry row0 code0, .setIpInterfaceEntry mrow 0,
           .logPrintln msg1])) := by
  obtain ⟨row, code, hrow, ha⟩ := AddIpAddress_cases p luid (p.ParseIP ipText) log
  by_cases hc : code = 0
  · subst hc
    obtain ⟨row0, code0, mrow, mcode, hm⟩ := SetMTU_cases p luid family mtu
      (log ++ [.initializeUnicastIpAddressEntry, .createUnicastIpAddressEntry row 0] ++
        [.logPrintln (label ++ " address set successfully: " ++ ipText)])
    simp only [List.append_assoc, List.cons_append, List.nil_append] at hm
    by_cases hmc : mcode = 0
    · subst hmc
      right; right
      refine ⟨row, label ++ " address set successfully: " ++ ipText, row0, code0, mrow,
        label ++ " MTU set successfully: " ++ toString mtu, ⟨_, hrow⟩, ?_⟩
      simp [assignFamily, ha, hm]
    · right; left
      refine ⟨row, label ++ " address set successfully: " ++ ipText, row0, code0, mrow,
        mcode, hmc, ⟨_, hrow⟩, ?_⟩
      simp [assignFamily, ha, hm, hmc, Platform.Errno, GoError.Error]
  · left
    refine ⟨row, code, hc, ⟨_, hrow⟩, ?_⟩
    simp only [assignFamily, ha]
    simp [hc, Platform.Errno, GoError.Error]

theorem AliasToLuid_eq (p : Platform) (name : String) (log : List PlatformEvent) :
    AliasToLuid p name log
      = (((p.ConvertInterfaceAliasToLuid log name).1,
          if (p.ConvertInterfaceAliasToLuid log name).2 ≠ 0
            then some (p.Errno (p.ConvertInterfaceAliasToLuid log name).2) else none),
        log ++ [.convertInterfaceAliasToLuid name (p.ConvertInterfaceAliasToLuid log name).2]) := by
  unfold AliasToLuid
  by_cases h : (p.ConvertInterfaceAliasToLuid log name).2 = 0 <;> simp [h]

theorem addressAttempts_append (xs ys : List PlatformEvent) :
    addressAttempts (xs ++ ys) = addressAttempts xs ++ addressAttempts ys := by
  induction xs with
  | nil => simp [addressAttempts]
  | cons x xs ih => cases x <;> simp [addressAttempts, ih]

theorem mtuAttempts_append (xs ys : List PlatformEvent) :
    mtuAttempts (xs ++ ys) = mtuAttempts xs ++ mtuAttempts ys := by
  induction xs with
  | nil => simp [mtuAttempts]
  | cons x xs ih => cases x <;> simp [mtuAttempts, ih]

/-- C8 (as amended): in `create` with both families enabled the set-up is sequential
and every failure aborts the whole of `create`.  Each failed address assignment and
each failed MTU assignment is the last platform call of the run and is reported by
an error (with no device) whose text contains the text of the underlying cause.  At
most two address assignments are attempted, the first with the configured IPv4
address and the second with the configured IPv6 address, and the second is attempted
exactly when the IPv4 address assignment and the IPv4 MTU assignment both
succeeded: a failure of either prevents the IPv6 address assignment. -/
theorem create_fail_fast (p : Platform) (cfg : AppConfig) (t : tunDevice)
    (log : List PlatformEvent) (h4 : t.ipv4 = true) (h6 : t.ipv6 = true) :
    (create p cfg t log).2.2 = log ++ newEvents log (create p cfg t log).2.2
    ∧ (∀ row code, (row, code) ∈ addressAttempts (newEvents log (create p cfg t log).2.2) →
        code ≠ 0 →
        (newEvents log (create p cfg t log).2.2).getLast?
          = some (.createUnicastIpAddressEntry row code)
        ∧ ∃ e, (create p cfg t log).1 = .error e
          ∧ Contains e.Error (p.errnoText code) = true)
    ∧ (∀ row code, (row, code) ∈ mtuAttempts (newEvents log (create p cfg t log).2.2) →
        code ≠ 0 →
        (newEvents log (create p cfg t log).2.2).getLast?
          = some (.setIpInterfaceEntry row code)
        ∧ ∃ e, (create p cfg t log).1 = .error e
          ∧ Contains e.Error (p.errnoText code) = true)
    ∧ (addressAttempts (newEvents log (create p cfg t log).2.2)).length ≤ 2
    ∧ ((addressAttempts (newEvents log (create p cfg t log).2.2)).length = 2 ↔
        ∃ r4 m4,
          (addressAttempts (newEvents log (create p cfg t log).2.2)).head? = some (r4, 0)
          ∧ (mtuAttempts (newEvents log (create p cfg t log).2.2)).head? = some (m4, 0))
    ∧ (∀ a, (addressAttempts (newEvents log (create p cfg t log).2.2))[0]? = some a →
        ∃ init, a.1.Address = SetIP init (p.ParseIP cfg.IPv4))
    ∧ (∀ a, (addressAttempts (newEvents log (create p cfg t log).2.2))[1]? = some a →
        ∃ init, a.1.Address = SetIP init (p.ParseIP cfg.IPv6)) := by
  have h40 : (if t.name = "" then { t with name := "usque" } else t).ipv4 = true := by
    split <;> simp [h4]
  have h60 : (if t.name = "" then { t with name := "usque" } else t).ipv6 = true := by
    split <;> simp [h6]
  unfold create
  simp only []
  generalize (if t.name = "" then { t with name := "usque" } else t) = t0 at h40 h60 ⊢
  cases hc : p.CreateTUNWithRequestedGUID log t0.name (NameToGuid p.md5Sum t0.name) t0.mtu with
  | error e =>
    simp only [newEvents_append]
    simp [addressAttempts, mtuAttempts]
  | ok dev =>
    simp only []
    rcases hn : p.Name (log ++ [.createTUN t0.name (NameToGuid p.md5Sum t0.name) t0.mtu true])
        dev with ⟨name, _ | e⟩
    · simp only [hn, AliasToLuid_eq, List.append_assoc, List.cons_append, List.nil_append]
      generalize hl : p.ConvertInterfaceAliasToLuid
        (log ++ [.createTUN t0.name (NameToGuid p.md5Sum t0.name) t0.mtu true,
          .devName true]) name = lc
      obtain ⟨luid, code⟩ := lc
      by_cases hcode : code = 0
      · subst hcode
        simp only [ne_eq, not_true_eq_false, if_false, h40, h60, if_true]
        rcases assignFamily_cases p luid t0.mtu "IPv4" cfg.IPv4 AF_INET
          (log ++ [.createTUN t0.name (NameToGuid p.md5Sum t0.name) t0.mtu true,
            .devName true, .convertInterfaceAliasToLuid name 0]) with
          ⟨row, c, hcne, hr4, hv4⟩ | ⟨row, msg, row0, code0, mrow, c, hcne, hr4, hv4⟩ |
          ⟨row, msg, row0, code0, mrow, msg1, hr4, hv4⟩
        · simp only [List.append_assoc, List.cons_append, List.nil_append] at hv4
          simp only [hv4, newEvents_append]
          refine ⟨trivial, ?_, ?_, ?_, ?_, ?_, ?_⟩
          · intro r code hm hne
            simp [addressAttempts] at hm
            obtain ⟨rfl, rfl⟩ := hm
            exact ⟨by simp, _, rfl, Contains_append_right _ _⟩
          · intro r code hm
            simp [mtuAttempts] at hm
          · simp [addressAttempts]
          · simp [addressAttempts, mtuAttempts, hcne]
          · intro a ha
            simp [addressAttempts] at ha
            subst ha
            exact hr4
          · intro a ha
            simp [addressAttempts] at ha
        · simp only [List.append_assoc, List.cons_append, List.nil_append] at hv4
          simp only [hv4, newEvents_append]
          refine ⟨trivial, ?_, ?_, ?_, ?_, ?_, ?_⟩
          · intro r code hm hne
            simp [addressAttempts] at hm
            exact absurd hm.2 hne
          · intro r code hm hne
            simp [mtuAttempts] at hm
            obtain ⟨rfl, rfl⟩ := hm
            exact ⟨by simp, _, rfl, Contains_append_right _ _⟩
          · simp [addressAttempts]
          · simp [addressAttempts, mtuAttempts, hcne]
          · intro a ha
            simp [addressAttempts] at ha
            subst ha
            exact hr4
          · intro a ha
            simp [addressAttempts] at ha
        · simp only [List.append_assoc, List.cons_append, List.nil_append] at hv4
          simp only [hv4]
          rcases assignFamily_cases p luid t0.mtu "IPv6" cfg.IPv6 AF_INET6
            (log ++ [.createTUN t0.name (NameToGuid p.md5Sum t0.name) t0.mtu true,
              .devName true, .convertInterfaceAliasToLuid name 0,
              .initializeUnicastIpAddressEntry, .createUnicastIpAddressEntry row 0,
              .logPrintln msg, .getIpInterfaceEntry row0 code0, .setIpInterfaceEntry mrow 0,
              .logPrintln msg1]) with
            ⟨r6, c, hcne, hr6, hv6⟩ | ⟨r6, msg6, g6, gc6, m6, c, hcne, hr6, hv6⟩ |
            ⟨r6, msg6, g6, gc6, m6, msg7, hr6, hv6⟩
          · simp only [List.append_assoc, List.cons_append, List.nil_append] at hv6
            simp only [hv6, newEvents_append]
            refine ⟨trivial, ?_, ?_, ?_, ?_, ?_, ?_⟩
            · intro r code hm hne
              simp [addressAttempts] at hm
              rcases hm with ⟨_, rfl⟩ | ⟨rfl, rfl⟩
              · exact absurd rfl hne
              · exact ⟨by simp, _, rfl, Contains_append_right _ _⟩
            · intro r code hm hne
              simp [mtuAttempts] at hm
              exact absurd hm.2 hne
            · simp [addressAttempts]
            · simp [addressAttempts, mtuAttempts]
            · intro a ha
              simp [addressAttempts] at ha
              subst ha
              exact hr4
            · intro a ha
              simp [addressAttempts] at ha
              subst ha
              exact hr6
          · simp only [List.append_assoc, List.cons_append, List.nil_append] at hv6
            simp only [hv6, newEvents_append]
            refine ⟨trivial, ?_, ?_, ?_, ?_, ?_, ?_⟩
            · intro r code hm hne
              simp [addressAttempts] at hm
              rcases hm with ⟨_, rfl⟩ | ⟨_, rfl⟩ <;> exact absurd rfl hne
            · intro r code hm hne
              simp [mtuAttempts] at hm
              rcases hm with ⟨_, rfl⟩ | ⟨rfl, rfl⟩
              · exact absurd rfl hne
              · exact ⟨by simp, _, rfl, Contains_append_right _ _⟩
            · simp [addressAttempts]
            · simp [addressAttempts, mtuAttempts]
            · intro a ha
              simp [addressAttempts] at ha
              subst ha
              exact hr4
            · intro a ha
              simp [addressAttempts] at ha
              subst ha
              exact hr6
          · simp only [List.append_assoc, List.cons_append, List.nil_append] at hv6
            simp only [hv6, newEvents_append]
            refine ⟨trivial, ?_, ?_, ?_, ?_, ?_, ?_⟩
            · intro r code hm hne
              simp [addressAttempts] at hm
              rcases hm with ⟨_, rfl⟩ | ⟨_, rfl⟩ <;> exact absurd rfl hne
            · intro r code hm hne
              simp [mtuAttempts] at hm
              rcases hm with ⟨_, rfl⟩ | ⟨_, rfl⟩ <;> exact absurd rfl hne
            · simp [addressAttempts]
            · simp [addressAttempts, mtuAttempts]
            · intro a ha
              simp [addressAttempts] at ha
              subst ha
              exact hr4
            · intro a ha
              simp [addressAttempts] at ha
              subst ha
              exact hr6
      · simp only [ne_eq, hcode, not_false_eq_true, if_true, newEvents_append]
        simp [addressAttempts, mtuAttempts]
    · simp only [hn, List.append_assoc, newEvents_append]
      simp [addressAttempts, mtuAttempts]

theorem create_fail_fast_witness :
    (addressAttempts (newEvents [] (create (samplePlatform 0) sampleConfig sampleTun []).2.2)).length
      ≤ 2 :=
  (create_fail_fast (samplePlatform 0) sampleConfig sampleTun [] rfl rfl).2.2.2.1

/-- C8, counterexample to the claim as stated: with both families enabled and the
IPv4 address assignment failing (code 5), `create` returns the wrapped error at
once and the only address assignment attempted is the IPv4 one: the IPv6 address
assignment is not attempted. -/
theorem create_ipv4_failure_counterexample :
    sampleTun.ipv4 = true ∧ sampleTun.ipv6 = true
    ∧ (create (samplePlatform 5) sampleConfig sampleTun []).1
        = .error (.errorString "failed to set IPv4 address: Access is denied.")
    ∧ (addressAttempts
        (newEvents [] (create (samplePlatform 5) sampleConfig sampleTun []).2.2)).map
          (fun a => (GetIP a.1.Address, a.2))
        = [(some [172, 16, 0, 2], 5)] := by
  decide

/-! ### The two loops side by side -/

/-- C4, counterexample to the claim as stated, in both directions.  First: with no
timeout, the tunnel at end-of-file and three bytes waiting on the client connection,
the goroutine (tunnel to client) ends after its first read; the handler (client to
tunnel) then still reads the three bytes from the client connection and writes them
to the tunnel connection.  Second: with the client at end-of-file and three bytes
read by the goroutine from the tunnel but not yet written, the handler returns; the
goroutine then still writes the three bytes to the client connection. -/
theorem flow_goroutine_stop_counterexample :
    (((Flow.start ⟨0⟩ (Conn.ofReads [⟨[1, 2, 3], none⟩]) (Conn.ofReads [])).run
        [.goroutine, .goroutine]).gPC = .done
    ∧ ((Flow.start ⟨0⟩ (Conn.ofReads [⟨[1, 2, 3], none⟩]) (Conn.ofReads [])).run
        [.goroutine, .goroutine]).c.delivered = []
    ∧ ((Flow.start ⟨0⟩ (Conn.ofReads [⟨[1, 2, 3], none⟩]) (Conn.ofReads [])).run
        [.goroutine, .goroutine]).rc.written = []
    ∧ (((Flow.start ⟨0⟩ (Conn.ofReads [⟨[1, 2, 3], none⟩]) (Conn.ofReads [])).run
        [.goroutine, .goroutine]).run [.handler, .handler, .handler]).c.delivered = [1, 2, 3]
    ∧ (((Flow.start ⟨0⟩ (Conn.ofReads [⟨[1, 2, 3], none⟩]) (Conn.ofReads [])).run
        [.goroutine, .goroutine]).run [.handler, .handler, .handler]).rc.written = [1, 2, 3])
    ∧
    (((Flow.start ⟨0⟩ (Conn.ofReads []) (Conn.ofReads [⟨[1, 2, 3], none⟩])).run
        [.goroutine, .goroutine, .handler, .handler, .handler]).hPC = .done
    ∧ ((Flow.start ⟨0⟩ (Conn.ofReads []) (Conn.ofReads [⟨[1, 2, 3], none⟩])).run
        [.goroutine, .goroutine, .handler, .handler, .handler]).c.written = []
    ∧ (((Flow.start ⟨0⟩ (Conn.ofReads []) (Conn.ofReads [⟨[1, 2, 3], none⟩])).run
        [.goroutine, .goroutine, .handler, .handler, .handler]).run
          [.goroutine]).c.written = [1, 2, 3]) := by
  simp only [Flow.start]
  generalize hbf : List.replicate (4 * 1024) 0 = bf
  have hlen : bf.length = 4096 := by rw [← hbf, List.length_replicate]
  clear hbf
  simp [Flow.run, Flow.step, refreshDeadline, Conn.Read, Conn.Write, Conn.Close, Conn.ofReads,
    hlen]

theorem Read_closed (c : Conn) (bf : Bytes) (h : c.closed = true) :
    c.Read bf = ((0, some errClosed), bf, c) := by
  simp [Conn.Read, h]

theorem Read_frame (c : Conn) (bf : Bytes) :
    (c.Read bf).2.2.closed = c.closed ∧ (c.Read bf).2.2.written = c.written := by
  unfold Conn.Read
  split
  · simp
  · split <;> simp

theorem Write_frame (c : Conn) (p : Bytes) :
    (c.Write p).2.closed = c.closed ∧ (c.Write p).2.delivered = c.delivered
    ∧ (c.Write p).2.reads = c.reads
    ∧ ∃ q, q <+: p ∧ (c.Write p).2.written = c.written ++ q := by
  unfold Conn.Write
  split
  · exact ⟨rfl, rfl, rfl, [], List.nil_prefix, by simp⟩
  · split
    · exact ⟨rfl, rfl, rfl, p, List.prefix_refl p, rfl⟩
    · exact ⟨rfl, rfl, rfl, p, List.prefix_refl p, rfl⟩
    · rename_i n e rest _
      exact ⟨rfl, rfl, rfl, p.take n, List.take_prefix n p, rfl⟩

/-- In every step, a returned handler has closed `rc`. -/
theorem Flow.step_closed (f : Flow) (th : Thread)
    (h : f.hPC = .done → f.rc.closed = true) :
    (f.step th).hPC = .done → (f.step th).rc.closed = true := by
  cases th with
  | handler =>
    unfold Flow.step
    simp only
    cases hp : f.hPC with
    | deadline => simp only; split <;> simp
    | read => simp only; split <;> simp
    | write => simp only; split <;> simp
    | exit => simp [Conn.Close]
    | done => simpa [hp] using h
  | goroutine =>
    unfold Flow.step
    simp only
    cases hp : f.gPC with
    | deadline => simpa [(refreshDeadline_frame f.TCPTimeout f.rc).2.2.1] using h
    | read => simpa [(Read_frame f.rc f.gBf).1] using h
    | write => simpa using h
    | exit => simpa using h
    | done => simpa using h

theorem Flow.run_closed (f : Flow) (sched : List Thread)
    (h : f.hPC = .done → f.rc.closed = true) :
    (f.run sched).hPC = .done → (f.run sched).rc.closed = true := by
  induction sched generalizing f with
  | nil => simpa [Flow.run] using h
  | cons th rest ih =>
    have := ih (f.step th) (Flow.step_closed f th h)
    simpa [Flow.run] using this

theorem Flow.step_afterReturn (f1 f : Flow) (th : Thread) (h : Flow.AfterReturn f1 f) :
    Flow.AfterReturn f1 (f.step th)
    ∧ (f.step th).gPC.rank ≤ f.gPC.rank - (if th = .goroutine then 1 else 0) := by
  obtain ⟨hT, hd, hcl, h1, h2, h3, h4⟩ := h
  cases th with
  | handler =>
    have : f.step .handler = f := by simp [Flow.step, hd]
    rw [this]
    exact ⟨⟨hT, hd, hcl, h1, h2, h3, h4⟩, by simp⟩
  | goroutine =>
    cases hp : f.gPC with
    | deadline =>
      have hq : ∃ q, q <+: f1.pending ∧ f.c.written = f1.c.written ++ q := by
        rcases h4 with h4 | h4
        · rw [hp] at h4; exact absurd h4.1 (by decide)
        · exact h4.2
      obtain ⟨_, _, f3, f4, f5⟩ := refreshDeadline_frame f.TCPTimeout f.rc
      have hs : f.step .goroutine =
          { f with
            rc := (refreshDeadline f.TCPTimeout f.rc).2
            gPC := if (refreshDeadline f.TCPTimeout f.rc).1.isSome then PC.done else PC.read } := by
        simp [Flow.step, hp]
      rw [hs]
      refine ⟨⟨hT, hd, by rw [f3]; exact hcl, h1, by rw [f4]; exact h2, by rw [f5]; exact h3,
        Or.inr ⟨?_, hq⟩⟩, ?_⟩
      · simp only; split <;> decide
      · simp only [if_true]; split <;> decide
    | read =>
      have hq : ∃ q, q <+: f1.pending ∧ f.c.written = f1.c.written ++ q := by
        rcases h4 with h4 | h4
        · rw [hp] at h4; exact absurd h4.1 (by decide)
        · exact h4.2
      have hs : f.step .goroutine = { f with gPC := .done } := by
        simp [Flow.step, hp, Read_closed f.rc f.gBf hcl]
      rw [hs]
      exact ⟨⟨hT, hd, hcl, h1, h2, h3, Or.inr ⟨by simp, hq⟩⟩, by simp [PC.rank]⟩
    | write =>
      have hpend : f.gBf.take f.gI = f1.pending := by
        rcases h4 with h4 | h4
        · rw [← h4.2.1]; simp [Flow.pending, hp]
        · exact absurd hp h4.1
      have hw : f.c.written = f1.c.written := by
        rcases h4 with h4 | h4
        · exact h4.2.2
        · exact absurd hp h4.1
      obtain ⟨w1, w2, _, q, hq1, hq2⟩ := Write_frame f.c (f.gBf.take f.gI)
      have hs : f.step .goroutine =
          { f with
            c := (f.c.Write (f.gBf.take f.gI)).2
            gPC := if (f.c.Write (f.gBf.take f.gI)).1.2.isSome then PC.done else PC.deadline } := by
        simp [Flow.step, hp]
      rw [hs]
      refine ⟨⟨hT, hd, hcl, by rw [← h1]; exact w2, h2, h3, Or.inr ⟨?_, q, ?_, ?_⟩⟩, ?_⟩
      · simp only; split <;> decide
      · rw [← hpend]; exact hq1
      · rw [← hw]; exact hq2
      · simp only [if_true]; split <;> decide
    | exit =>
      have hq : ∃ q, q <+: f1.pending ∧ f.c.written = f1.c.written ++ q := by
        rcases h4 with h4 | h4
        · rw [hp] at h4; exact absurd h4.1 (by decide)
        · exact h4.2
      have hs : f.step .goroutine = { f with gPC := .done } := by
        simp [Flow.step, hp]
      rw [hs]
      exact ⟨⟨hT, hd, hcl, h1, h2, h3, Or.inr ⟨by simp, hq⟩⟩, by simp [PC.rank]⟩
    | done =>
      have hs : f.step .goroutine = f := by simp [Flow.step, hp]
      rw [hs]
      exact ⟨⟨hT, hd, hcl, h1, h2, h3, h4⟩, by simp [hp, PC.rank]⟩

theorem Flow.run_afterReturn (f1 f : Flow) (sched : List Thread)
    (h : Flow.AfterReturn f1 f) :
    Flow.AfterReturn f1 (f.run sched)
    ∧ (f.run sched).gPC.rank ≤ f.gPC.rank - sched.count .goroutine := by
  induction sched generalizing f with
  | nil => exact ⟨h, by simp [Flow.run]⟩
  | cons th rest ih =>
    obtain ⟨s1, s2⟩ := Flow.step_afterReturn f1 f th h
    obtain ⟨r1, r2⟩ := ih (f.step th) s1
    have hrun : f.run (th :: rest) = (f.step th).run rest := by simp [Flow.run]
    rw [hrun]
    refine ⟨r1, ?_⟩
    cases th with
    | handler =>
      simp only [if_false, Nat.sub_zero, reduceCtorEq] at s2
      have : (Thread.handler :: rest).count .goroutine = rest.count .goroutine := by
        simp [List.count_cons]
      rw [this]
      omega
    | goroutine =>
      simp only [if_true] at s2
      have : (Thread.goroutine :: rest).count .goroutine = rest.count .goroutine + 1 := by
        simp [List.count_cons]
      rw [this]
      omega

theorem Flow.afterReturn_refl (f : Flow) (hd : f.hPC = .done) (hc : f.rc.closed = true) :
    Flow.AfterReturn f f := by
  refine ⟨rfl, hd, hc, rfl, rfl, rfl, ?_⟩
  by_cases hp : f.gPC = .write
  · exact Or.inl ⟨hp, rfl, rfl⟩
  · exact Or.inr ⟨hp, [], List.nil_prefix, by simp⟩

/-- C4 (as amended): once `TCPHandle` has returned from the CONNECT branch (its
client-to-tunnel loop has stopped and the deferred `rc.Close()` has run), in every
later state of the flow no further bytes have been read from either connection,
none have been written to the tunnel connection, and the goroutine has written to
the client connection at most (a prefix of) the one chunk it had already read; the
goroutine makes at most three more calls and then has ended. -/
theorem flow_after_return (s : Server) (c rc : Conn) (sched1 sched2 : List Thread)
    (hret : ((Flow.start s c rc).run sched1).hPC = .done) :
    ((Flow.start s c rc).run sched1).rc.closed = true
    ∧ (((Flow.start s c rc).run sched1).run sched2).hPC = .done
    ∧ (((Flow.start s c rc).run sched1).run sched2).c.delivered
        = ((Flow.start s c rc).run sched1).c.delivered
    ∧ (((Flow.start s c rc).run sched1).run sched2).rc.delivered
        = ((Flow.start s c rc).run sched1).rc.delivered
    ∧ (((Flow.start s c rc).run sched1).run sched2).rc.written
        = ((Flow.start s c rc).run sched1).rc.written
    ∧ (∃ q, q <+: ((Flow.start s c rc).run sched1).pending
        ∧ (((Flow.start s c rc).run sched1).run sched2).c.written
          = ((Flow.start s c rc).run sched1).c.written ++ q)
    ∧ (3 ≤ sched2.count .goroutine →
        (((Flow.start s c rc).run sched1).run sched2).gPC = .done) := by
  have hcl : ((Flow.start s c rc).run sched1).rc.closed = true :=
    Flow.run_closed (Flow.start s c rc) sched1 (fun h => by cases h) hret
  obtain ⟨⟨_, hd, _, h1, h2, h3, h4⟩, hr⟩ := Flow.run_afterReturn _ _ sched2
    (Flow.afterReturn_refl _ hret hcl)
  refine ⟨hcl, hd, h1, h2, h3, ?_, ?_⟩
  · rcases h4 with h4 | h4
    · exact ⟨[], List.nil_prefix, by simp [h4.2.2]⟩
    · exact h4.2
  · intro h3c
    have hle : ((Flow.start s c rc).run sched1).gPC.rank ≤ 3 := by
      cases ((Flow.start s c rc).run sched1).gPC <;> decide
    have h0 : (((Flow.start s c rc).run sched1).run sched2).gPC.rank = 0 := by omega
    revert h0
    cases (((Flow.start s c rc).run sched1).run sched2).gPC <;> simp [PC.rank]

theorem flow_after_return_witness :
    ((Flow.start ⟨0⟩ (Conn.ofReads []) (Conn.ofReads [⟨[1, 2, 3], none⟩])).run
        [.goroutine, .goroutine, .handler, .handler, .handler]).rc.closed = true :=
  (flow_after_return ⟨0⟩ (Conn.ofReads []) (Conn.ofReads [⟨[1, 2, 3], none⟩])
    [.goroutine, .goroutine, .handler, .handler, .handler] [.goroutine, .goroutine]
    (by
      simp only [Flow.start]
      generalize hbf : List.replicate (4 * 1024) 0 = bf
      have hlen : bf.length = 4096 := by rw [← hbf, List.length_replicate]
      clear hbf
      simp [Flow.run, Flow.step, refreshDeadline, Conn.Read, Conn.Write, Conn.ofReads, hlen])).1

/-- The handler thread of `Flow` and the loop of `TCPHandle` are the same code: from
the head of the loop, at most three calls of the handler make one pass of
`relayLoop` on the same connections, ending past the loop exactly when the pass
left it. -/
theorem Flow.handler_pass (f : Flow) (h : f.hPC = .deadline) :
    ∃ n, n ≤ 3
      ∧ (f.run (List.replicate n .handler)).c = (relayLoop f.TCPTimeout 1 f.c f.rc f.hBf).2.1
      ∧ (f.run (List.replicate n .handler)).rc = (relayLoop f.TCPTimeout 1 f.c f.rc f.hBf).2.2
      ∧ (f.run (List.replicate n .handler)).hPC
          = (if (relayLoop f.TCPTimeout 1 f.c f.rc f.hBf).1 then PC.exit else PC.deadline) := by
  rw [relayLoop_succ]
  by_cases h1 : (refreshDeadline f.TCPTimeout f.c).1.isSome = true
  · exact ⟨1, by omega, by simp [Flow.run, Flow.step, h, h1]⟩
  · by_cases h2 : ((refreshDeadline f.TCPTimeout f.c).2.Read f.hBf).1.2.isSome = true
    · exact ⟨2, by omega, by simp [Flow.run, Flow.step, h, h1, h2, List.replicate]⟩
    · by_cases h3 : (f.rc.Write ((((refreshDeadline f.TCPTimeout f.c).2.Read f.hBf).2.1).take
          ((refreshDeadline f.TCPTimeout f.c).2.Read f.hBf).1.1)).1.2.isSome = true
      · exact ⟨3, by omega, by simp [Flow.run, Flow.step, h, h1, h2, h3, List.replicate]⟩
      · exact ⟨3, by omega,
          by simp [Flow.run, Flow.step, h, h1, h2, h3, List.replicate, relayLoop]⟩

end Usque
